import Mathlib

/-!
Verification of the mtga-tracker ingestion pipeline (Go sources under
`internal/ingest/parser.go` and `internal/db/store.go`) against its
natural-language specification.  The Go code is shallowly embedded:
strings are Lean `String`s processed as `List Char`, `int64` values are
Lean `Int`, SQL rows are Lean structures held in lists, and the impure
bits (wall-clock `nowUTC()`, SQL transactions) become explicit arguments
and pure state passing.
-/

namespace MtgaSpec

/-! ## String helpers shared by the embedded Go functions -/

/-- Whitespace as recognized by Go `unicode.IsSpace` for the code points
that occur in MTGA logs (Latin-1 range). -/
def isGoSpace (c : Char) : Bool :=
  c = ' ' ∨ c = '\t' ∨ c = '\n' ∨ c = '\x0b' ∨ c = '\x0c' ∨ c = '\r' ∨
  c = '\x85' ∨ c = '\xa0'

/-- Character-list core of Go `strings.TrimSpace`. -/
def trimChars (cs : List Char) : List Char :=
  ((cs.dropWhile isGoSpace).reverse.dropWhile isGoSpace).reverse

/-- Go `strings.TrimSpace`. -/
def goTrim (s : String) : String :=
  (trimChars s.toList).asString

/-- Go `strings.HasPrefix`. -/
def goHasPre (s pre : String) : Bool :=
  List.isPrefixOf pre.toList s.toList

/-- Go `strings.TrimPrefix`: drop `pre` once when `s` starts with it. -/
def goTrimPre (pre s : String) : String :=
  if goHasPre s pre then (s.toList.drop pre.toList.length).asString else s

/-- ASCII lower-casing of one character (the case relevant to the log
tokens handled by the parser; Go applies full Unicode folding). -/
def lowerC (c : Char) : Char :=
  if 'A' ≤ c ∧ c ≤ 'Z' then Char.ofNat (c.toNat + 32) else c

/-- Go `strings.ToLower` restricted to ASCII (all compared tokens are ASCII). -/
def goLower (s : String) : String :=
  (s.toList.map lowerC).asString

/-- Go `strings.EqualFold` restricted to ASCII. -/
def goEqualFold (a b : String) : Bool :=
  goLower a = goLower b

/-- Decimal digit test. -/
def isDigitCh (c : Char) : Bool :=
  '0' ≤ c ∧ c ≤ '9'

/-- Go `strconv.ParseInt(s, 10, 64)` : optional sign, mandatory digits,
64-bit range check; any failure is `none`. -/
def goParseInt64 (s : String) : Option Int :=
  match s.toList with
  | [] => none
  | c :: rest =>
    let signed : Bool × List Char :=
      if c = '-' then (true, rest) else if c = '+' then (false, rest) else (false, c :: rest)
    let ds := signed.2
    if ds = [] then none
    else if ¬ ds.all isDigitCh then none
    else
      let n : Nat := ds.foldl (fun a d => a * 10 + (d.toNat - '0'.toNat)) 0
      let v : Int := if signed.1 then -(n : Int) else (n : Int)
      if -(2 ^ 63) ≤ v ∧ v < 2 ^ 63 then some v else none

/-! ## C7 — room-state timestamp parsing (`parseRoomTimestamp`,
`internal/ingest/parser.go:575`).

The Go function returns either `""` or `time.{UnixMilli,Unix}(v)` rendered
with `Format(time.RFC3339Nano)`.  The rendering is an injective function of
the instant, so the embedding represents the parsed instant by its epoch
millisecond count; `none` stands for the empty string. -/

/-- `parseRoomTimestamp` with the produced instant represented as epoch
milliseconds (`time.UnixMilli v` ↦ `v`, `time.Unix v 0` ↦ `v * 1000`). -/
def parseRoomTimestampMs (raw : String) : Option Int :=
  let raw := goTrim raw
  if raw = "" then none
  else
    match goParseInt64 raw with
    | none => none
    | some v =>
      if 1000000000000 ≤ v ∧ v < 10000000000000 then some v
      else if 1000000000 ≤ v ∧ v < 10000000000 then some (v * 1000)
      else none

/-- `parseRoomTimestamp` proper: the canonical textual instant form is an
injective rendering of the epoch-millisecond instant ("" = absent). -/
def parseRoomTimestamp (raw : String) : String :=
  match parseRoomTimestampMs raw with
  | none => ""
  | some m => "unix-ms:" ++ toString m

/-- The wall-clock second of an embedded instant. -/
def instantSecond (m : Int) : Int := m / 1000

/-! ## C1 — the `ParseFile` read loop (`internal/ingest/parser.go:397`)

`bufio.Reader.ReadString('\n')` returns the bytes up to and including the
first newline; at end of file it returns the remaining bytes together with
`io.EOF`.  The loop at parser.go:397-427 breaks only when the returned
line is empty, so a final line without a newline IS processed, and
`byteOffset` (parser.go:408) is advanced past it before the final
`SaveIngestState` at parser.go:429. -/

/-- `bufio.Reader.ReadString('\n')`: the consumed line (newline included
when present) and the unread remainder. -/
def goReadString : List Char → List Char × List Char
  | [] => ([], [])
  | c :: t =>
    if c = '\n' then ([c], t)
    else
      let r := goReadString t
      (c :: r.1, r.2)

/-- One step of the read loop for each unit of fuel; since every consumed
line holds at least one byte, fuel equal to the remaining byte count is
always sufficient (see `parseFileRead`). -/
def parseFileReadAux : Nat → List Char → List (List Char) × Nat
  | _, [] => ([], 0)
  | 0, _ :: _ => ([], 0)
  | n + 1, c :: t =>
    let line := (goReadString (c :: t)).1
    let rest := (goReadString (c :: t)).2
    let r := parseFileReadAux n rest
    (line :: r.1, line.length + r.2)

/-- The read loop of `ParseFile` (parser.go:397-427): the list of lines
handed to processing (each with its terminator still attached, exactly the
bytes counted into `byteOffset`) and the total number of bytes by which
the committed offset advances past the start offset. -/
def parseFileRead (cs : List Char) : List (List Char) × Nat :=
  parseFileReadAux cs.length cs

/-! ## C4 — batched commits and the `IngestState` boundary
(parser.go:369-434, store.go:73-86)

The loop processes lines one at a time; `linesSinceCommit` counts lines in
the open transaction, and once it reaches `batchSize = 500` the `commit`
closure writes `SaveIngestState(byteOffset, lineNo)` inside that same
transaction and commits (parser.go:382-395, 418-422).  A processing error
aborts the run; the deferred rollback leaves the stored row at the value
written by the last successful commit.  The model reduces the database to
that one stored `(offset, line_no)` pair; a line is a pair of its byte
length and a flag telling whether `processLine` succeeds on it. -/

/-- The `ParseFile` loop from parser.go:397-427 reduced to its commit
behaviour.  `stored` is the committed `ingest_state` row, `off`/`line` the
in-memory cursors, `since` the open transaction's `linesSinceCommit`.
Returns the stored row visible after the run together with whether the run
completed (reaching the final `SaveIngestState` + commit at
parser.go:429-434). -/
def parseFileCommits (stored : Nat × Nat) (off line since : Nat) :
    List (Nat × Bool) → (Nat × Nat) × Bool
  | [] => ((off, line), true)
  | (len, okLine) :: rest =>
    let off2 := off + len
    let line2 := line + 1
    if okLine then
      if since + 1 ≥ 500 then
        parseFileCommits (off2, line2) off2 line2 0 rest
      else
        parseFileCommits stored off2 line2 (since + 1) rest
    else (stored, false)

/-- Byte/line boundary after the first `k` lines (intended for `k` at most
the number of lines). -/
def boundaryAfter (off line : Nat) (lines : List (Nat × Bool)) (k : Nat) :
    Nat × Nat :=
  (off + ((lines.take k).map Prod.fst).sum, line + k)

/-! ## The correlator's per-log in-memory state (`parseState`,
parser.go:68-163) -/

/-- `parseState` (parser.go:68-76); the Go maps become association lists. -/
structure ParseState where
  personaID : String := ""
  playerName : String := ""
  activeMatchID : String := ""
  selfSeatByMatch : List (String × Int) := []
  turnByMatch : List (String × Int) := []
  phaseByMatch : List (String × String) := []
  zoneTypeByMatch : List (String × List (Int × String)) := []
deriving DecidableEq, Repr

/-- The zero value `&parseState{}`. -/
def emptyParseState : ParseState := {}

/-- Association-list lookup (Go map indexing; `none` = key absent). -/
def alistFind (m : List (String × α)) (k : String) : Option α :=
  (m.find? (fun p => p.1 = k)).map Prod.snd

/-- Association-list store (Go map assignment). -/
def alistPut (m : List (String × α)) (k : String) (v : α) :
    List (String × α) :=
  if (m.find? (fun p => p.1 = k)).isSome then
    m.map (fun p => if p.1 = k then (k, v) else p)
  else m ++ [(k, v)]

/-- `normalizeGREPhase` (parser.go:633-642). -/
def normalizeGREPhase (raw : String) : String :=
  let raw := goTrim raw
  let raw := goTrimPre "Phase_" raw
  let raw := goTrimPre "Step_" raw
  let raw := goTrim raw
  if raw = "" then "" else goLower raw

/-- `normalizeGREZoneType` (parser.go:644-652). -/
def normalizeGREZoneType (raw : String) : String :=
  let raw := goTrim raw
  let raw := goTrimPre "ZoneType_" raw
  let raw := goTrim raw
  if raw = "" then "" else goLower raw

/-- `isTimelinePlayableZone` (parser.go:654-657). -/
def isTimelinePlayableZone (zoneType : String) : Bool :=
  let zoneType := goTrim (goLower zoneType)
  zoneType = "stack" ∨ zoneType = "battlefield"

/-- `fallbackGREZoneType` (parser.go:659-668). -/
def fallbackGREZoneType (zoneID : Int) : String :=
  if zoneID = 27 then "stack"
  else if zoneID = 28 then "battlefield"
  else ""

/-- `parseState.rememberSelfSeat` (parser.go:78-87). -/
def rememberSelfSeat (s : ParseState) (matchID : String) (seatID : Int) :
    ParseState :=
  let matchID := goTrim matchID
  if matchID = "" ∨ seatID ≤ 0 then s
  else { s with selfSeatByMatch := alistPut s.selfSeatByMatch matchID seatID }

/-- `parseState.selfSeat` (parser.go:89-95); a missing key reads as the map
zero value 0. -/
def selfSeat (s : ParseState) (matchID : String) : Int :=
  let matchID := goTrim matchID
  if matchID = "" then 0
  else (alistFind s.selfSeatByMatch matchID).getD 0

/-- `parseState.rememberTurn` (parser.go:97-106). -/
def rememberTurn (s : ParseState) (matchID : String) (turnNumber : Int) :
    ParseState :=
  let matchID := goTrim matchID
  if matchID = "" ∨ turnNumber ≤ 0 then s
  else { s with turnByMatch := alistPut s.turnByMatch matchID turnNumber }

/-- `parseState.turn` (parser.go:108-114). -/
def stateTurn (s : ParseState) (matchID : String) : Int :=
  let matchID := goTrim matchID
  if matchID = "" then 0
  else (alistFind s.turnByMatch matchID).getD 0

/-- `parseState.rememberPhase` (parser.go:116-126). -/
def rememberPhase (s : ParseState) (matchID phase : String) : ParseState :=
  let matchID := goTrim matchID
  let phase := normalizeGREPhase phase
  if matchID = "" ∨ phase = "" then s
  else { s with phaseByMatch := alistPut s.phaseByMatch matchID phase }

/-- `parseState.phase` (parser.go:128-134). -/
def statePhase (s : ParseState) (matchID : String) : String :=
  let matchID := goTrim matchID
  if matchID = "" then ""
  else (alistFind s.phaseByMatch matchID).getD ""

/-- `parseState.rememberZoneType` (parser.go:136-151). -/
def rememberZoneType (s : ParseState) (matchID : String) (zoneID : Int)
    (zoneType : String) : ParseState :=
  let matchID := goTrim matchID
  let zoneType := normalizeGREZoneType zoneType
  if matchID = "" ∨ zoneID ≤ 0 ∨ zoneType = "" then s
  else
    let byZone := (alistFind s.zoneTypeByMatch matchID).getD []
    let byZone2 :=
      if (byZone.find? (fun p => p.1 = zoneID)).isSome then
        byZone.map (fun p => if p.1 = zoneID then (zoneID, zoneType) else p)
      else byZone ++ [(zoneID, zoneType)]
    { s with zoneTypeByMatch := alistPut s.zoneTypeByMatch matchID byZone2 }

/-- `parseState.zoneType` (parser.go:153-163). -/
def stateZoneType (s : ParseState) (matchID : String) (zoneID : Int) :
    String :=
  let matchID := goTrim matchID
  if matchID = "" ∨ zoneID ≤ 0 then ""
  else
    let byZone := (alistFind s.zoneTypeByMatch matchID).getD []
    ((byZone.find? (fun p => p.1 = zoneID)).map Prod.snd).getD ""

/-! ## C5 — rotation/truncation reset (parser.go:320-359, 45-66) -/

/-- The resume/reset computation at the head of `ParseFile`
(parser.go:323-357): from the `resume` flag, the saved `IngestState` row
(`none` = not found) and the current file size, compute the start offset,
start line and whether the per-log state is reset. -/
def parseStartConfig (resume : Bool) (saved : Option (Int × Int))
    (size : Int) : Int × Int × Bool :=
  let cfg : Int × Int × Bool :=
    if resume then
      match saved with
      | some (o, l) => if o = 0 ∧ l = 0 then (o, l, true) else (o, l, false)
      | none => (0, 0, false)
    else (0, 0, true)
  if cfg.1 > size then (0, 0, true) else cfg

/-- `Parser.stateForLog` (parser.go:45-66): returns the state to use for
this run and the updated `stateByLog` map. -/
def stateForLog (stateByLog : List (String × ParseState)) (logPath : String)
    (reset : Bool) : ParseState × List (String × ParseState) :=
  let key := goTrim logPath
  if key = "" then (emptyParseState, stateByLog)
  else if reset then (emptyParseState, alistPut stateByLog key emptyParseState)
  else
    match alistFind stateByLog key with
    | some st => (st, stateByLog)
    | none => (emptyParseState, alistPut stateByLog key emptyParseState)

/-! ## C8 — identity learning in `processLine` (parser.go:440-472)

The four identity regexes (parser.go:22-30) are embedded as direct
matchers; Go's leftmost-first search becomes a scan that tries the matcher
at every start position from the left.  For these patterns (a literal,
then a greedy character-class run, then a literal) the greedy run is
maximal, and a shorter run can never be followed by the closing literal
because the class excludes its first character, so the direct matcher is
exact. -/

/-- The regex class `[A-Za-z0-9_\-]`. -/
def isIdentCh (c : Char) : Bool :=
  ('A' ≤ c ∧ c ≤ 'Z') ∨ ('a' ≤ c ∧ c ≤ 'z') ∨ ('0' ≤ c ∧ c ≤ '9') ∨
  c = '_' ∨ c = '-'

/-- The regex class `\s` of RE2. -/
def isRegexSpace (c : Char) : Bool :=
  c = ' ' ∨ c = '\t' ∨ c = '\n' ∨ c = '\x0c' ∨ c = '\r' ∨ c = '\x0b'

/-- Match a literal, returning the remaining input. -/
def dropLit : List Char → List Char → Option (List Char)
  | [], s => some s
  | _ :: _, [] => none
  | c :: p, d :: s => if c = d then dropLit p s else none

/-- After a literal, capture a nonempty greedy `[A-Za-z0-9_\-]+` run that
must be followed by the closing literal `post`. -/
def captureRun (cls : Char → Bool) (post : List Char) (s : List Char) :
    Option (List Char) :=
  let run := s.takeWhile cls
  if run = [] then none
  else
    match dropLit post (s.drop run.length) with
    | some _ => some run
    | none => none

/-- Leftmost search: try the matcher at every start position. -/
def scanFor (f : List Char → Option (List Char)) :
    List Char → Option (List Char)
  | [] => f []
  | c :: t =>
    match f (c :: t) with
    | some r => some r
    | none => scanFor f t

/-- `rePersonaPlain` = `"PersonaId":"([A-Za-z0-9_\-]+)"` (parser.go:25),
group 1. -/
def rePersonaPlainFind (line : String) : Option String :=
  (scanFor
    (fun s => do
      let s1 ← dropLit "\"PersonaId\":\"".toList s
      captureRun isIdentCh "\"".toList s1)
    line.toList).map List.asString

/-- `rePersonaEscaped` = `\\\"PersonaId\\\":\\\"([A-Za-z0-9_\-]+)\\\"`
(parser.go:26), group 1. -/
def rePersonaEscapedFind (line : String) : Option String :=
  (scanFor
    (fun s => do
      let s1 ← dropLit "\\\"PersonaId\\\":\\\"".toList s
      captureRun isIdentCh "\\\"".toList s1)
    line.toList).map List.asString

/-- `rePersonaMatchTo` = `Match to ([A-Za-z0-9_\-]+):` (parser.go:27),
group 1. -/
def rePersonaMatchToFind (line : String) : Option String :=
  (scanFor
    (fun s => do
      let s1 ← dropLit "Match to ".toList s
      captureRun isIdentCh ":".toList s1)
    line.toList).map List.asString

/-- `reClientID` = `"clientId"\s*:\s*"([A-Za-z0-9_\-]+)"` (parser.go:28),
group 1. -/
def reClientIDFind (line : String) : Option String :=
  (scanFor
    (fun s => do
      let s1 ← dropLit "\"clientId\"".toList s
      match (s1.dropWhile isRegexSpace) with
      | ':' :: s2 =>
        match (s2.dropWhile isRegexSpace) with
        | '"' :: s3 => captureRun isIdentCh "\"".toList s3
        | _ => none
      | _ => none)
    line.toList).map List.asString

/-- `reScreenName` = `"screenName"\s*:\s*"([^"]+)"` (parser.go:29),
group 1. -/
def reScreenNameFind (line : String) : Option String :=
  (scanFor
    (fun s => do
      let s1 ← dropLit "\"screenName\"".toList s
      match (s1.dropWhile isRegexSpace) with
      | ':' :: s2 =>
        match (s2.dropWhile isRegexSpace) with
        | '"' :: s3 => captureRun (fun c => ¬ c = '"') "\"".toList s3
        | _ => none
      | _ => none)
    line.toList).map List.asString

/-- parser.go:447-450: the plain pattern, falling back to the escaped
pattern when the plain one does not match. -/
def personaPlainOrEscaped (line : String) : Option String :=
  match rePersonaPlainFind line with
  | some v => some v
  | none => rePersonaEscapedFind line

/-- The plain/escaped PersonaId lookup with the `NoInstallID` rejection
(parser.go:447-456). -/
def personaStep1 (st : ParseState) (line : String) : ParseState :=
  match personaPlainOrEscaped line with
  | some id =>
    if goHasPre id "NoInstallID" then st else { st with personaID := id }
  | none => st

/-- The `Match to <id>:` fallback (parser.go:457-461); note no
`NoInstallID` rejection here. -/
def personaStep2 (st : ParseState) (line : String) : ParseState :=
  if st.personaID = "" then
    match rePersonaMatchToFind line with
    | some v => { st with personaID := goTrim v }
    | none => st
  else st

/-- The `clientId` fallback (parser.go:462-466); no `NoInstallID`
rejection here either. -/
def personaStep3 (st : ParseState) (line : String) : ParseState :=
  if st.personaID = "" then
    match reClientIDFind line with
    | some v => { st with personaID := goTrim v }
    | none => st
  else st

/-- The whole persona block (parser.go:446-467), guarded by the outer
`personaID == ""` test. -/
def personaUpdate (st : ParseState) (line : String) : ParseState :=
  if st.personaID = "" then
    personaStep3 (personaStep2 (personaStep1 st line) line) line
  else st

/-- The screen-name block (parser.go:468-472). -/
def screenNameStep (st : ParseState) (line : String) : ParseState :=
  if st.playerName = "" then
    match reScreenNameFind line with
    | some v => { st with playerName := goTrim v }
    | none => st
  else st

/-- The identity-learning part of `processLine` (parser.go:440-472): the
leading `TrimSpace`/empty-line return, the persona patterns (plain,
escaped, `Match to`, clientId) and the screen-name pattern.  The remainder
of `processLine` (dispatch to the handlers, parser.go:474-506) never
writes `personaID`. -/
def processLineIdentity (st : ParseState) (line : String) : ParseState :=
  let line := goTrim line
  if line = "" then st
  else screenNameStep (personaUpdate st line) line

/-! ## The storage layer (`internal/db/store.go`)

SQL rows become Lean structures in lists; autoincrement ids are explicit
counters; `NULL`able columns are `Option`s; the impure `nowUTC()` becomes
a `now : String` argument.  `normalizeTS` (store.go:40-50) trims and then
round-trips a parseable RFC3339 timestamp through `time.Parse`/`Format`,
which is the identity on the already canonical timestamps this development
evaluates; it is embedded as the trim. -/

/-- `normalizeTS` (store.go:40-50), see the section comment. -/
def normalizeTS (ts : String) : String := goTrim ts

/-- `nullIfEmpty` (store.go:237-243): `none` models SQL NULL. -/
def nullIfEmpty (v : String) : Option String :=
  let v := goTrim v
  if v = "" then none else some v

/-- `nullableInt` (store.go:230-235). -/
def nullableInt (v : Int) : Option Int :=
  if v = 0 then none else some v

/-- SQL `COALESCE` on two operands. -/
def coalesce (a b : Option α) : Option α :=
  match a with
  | some x => some x
  | none => b

/-- Go `strings.Contains` over character lists. -/
def containsChars (sub : List Char) : List Char → Bool
  | [] => List.isPrefixOf sub []
  | c :: t => List.isPrefixOf sub (c :: t) || containsChars sub t

/-- Go `strings.Contains`. -/
def goContains (s sub : String) : Bool :=
  containsChars sub.toList s.toList

/-- `detectEventType` (store.go:104-120). -/
def detectEventType (eventName : String) : String :=
  let e := goLower eventName
  if goContains e "quickdraft" then "quick_draft"
  else if goContains e "premierdraft" then "premier_draft"
  else if goContains e "traditionalsealed" ∨ goContains e "sealed" then
    "sealed"
  else if goContains e "jump_in" then "jump_in"
  else if goContains e "ladder" then "ladder"
  else "other"

/-- The regex class `[A-Za-z0-9]`. -/
def isAlnum (c : Char) : Bool :=
  ('A' ≤ c ∧ c ≤ 'Z') ∨ ('a' ≤ c ∧ c ≤ 'z') ∨ ('0' ≤ c ∧ c ≤ '9')

/-- One alternative of `reSetKindEvent` (store.go:122): the whole string
must be `<alnum+>_<kindLit>`. -/
def setKindAlternative (kindLit kindName : String) (cs : List Char) :
    Option (String × String) :=
  let suf := ("_" ++ kindLit).toList
  if List.isSuffixOf suf cs then
    let pre := cs.take (cs.length - suf.length)
    if pre ≠ [] ∧ pre.all isAlnum then some (pre.asString, kindName)
    else none
  else none

/-- `reSetKindEvent.FindStringSubmatch` =
`^([A-Za-z0-9]+)_(Quick_Draft|Premier_Draft|Sealed)$` (store.go:122),
returning (set code group, lower-cased kind as in store.go:145). -/
def reSetKindEventMatch (s : String) : Option (String × String) :=
  let cs := s.toList
  match setKindAlternative "Quick_Draft" "quick_draft" cs with
  | some r => some r
  | none =>
    match setKindAlternative "Premier_Draft" "premier_draft" cs with
    | some r => some r
    | none => setKindAlternative "Sealed" "sealed" cs

/-- SQLite `LIKE` over character lists (ASCII case folding; `%` and `_`
wildcards), with explicit fuel so that the kernel can evaluate matches;
every step shrinks pattern-plus-input, so `likeChars` supplies enough. -/
def likeCharsAux : Nat → List Char → List Char → Bool
  | 0, _, _ => false
  | _ + 1, [], s => s.isEmpty
  | n + 1, '%' :: p, [] => likeCharsAux n p []
  | n + 1, '%' :: p, c :: t =>
    likeCharsAux n p (c :: t) || likeCharsAux n ('%' :: p) t
  | _ + 1, '_' :: _, [] => false
  | n + 1, '_' :: p, _ :: t => likeCharsAux n p t
  | _ + 1, _ :: _, [] => false
  | n + 1, c :: p, d :: t => (lowerC c = lowerC d) && likeCharsAux n p t

/-- SQLite `LIKE` over character lists. -/
def likeChars (p s : List Char) : Bool :=
  likeCharsAux (p.length + s.length + 1) p s

/-- SQLite `expr LIKE pattern`. -/
def likeMatch (pattern s : String) : Bool :=
  likeChars pattern.toList s.toList

/-- `ORDER BY key DESC LIMIT 1`: the row with the largest key (first one
on ties, which SQL leaves unspecified). -/
def pickNewest (key : α → String) (rows : List α) : Option α :=
  rows.foldl
    (fun acc r =>
      match acc with
      | none => some r
      | some b => if key b < key r then some r else some b)
    none

/-- `event_runs` row (schema.sql:27-39, the columns this development
reads). -/
structure EventRunRow where
  eventName : String
  eventType : String := ""
  status : String := "active"
  startedAt : Option String := none
  endedAt : Option String := none
  wins : Int := 0
  losses : Int := 0
  updatedAt : String := ""
deriving DecidableEq, Repr

/-- `COALESCE(started_at, updated_at)` used by the alias resolver's
`ORDER BY` (store.go:163). -/
def runOrderKey (r : EventRunRow) : String :=
  r.startedAt.getD r.updatedAt

/-- The LIKE pattern choice of store.go:146-154. -/
def kindLikePattern (setCode kind : String) : String :=
  if kind = "quick_draft" then "quickdraft_" ++ setCode ++ "_%"
  else if kind = "premier_draft" then "premierdraft_" ++ setCode ++ "_%"
  else if kind = "sealed" then "sealed_" ++ setCode ++ "_%"
  else ""

/-- The LIKE-pattern lookup of store.go:144-173: on a `SET_Kind` match,
derive the pattern and take the newest `event_runs` row whose lower-cased
name matches it, otherwise keep the input. -/
def resolveLikeBranch (runs : List EventRunRow) (eventName : String)
    (sk : String × String) : String :=
  if kindLikePattern (goLower sk.1) sk.2 = "" then eventName
  else
    match pickNewest runOrderKey
      (runs.filter (fun r =>
        likeMatch (kindLikePattern (goLower sk.1) sk.2)
          (goLower r.eventName))) with
    | some r => r.eventName
    | none => eventName

/-- `resolveEventNameAlias` (store.go:124-174) after the initial
`TrimSpace`: exact match against `event_runs.event_name` first, then the
`SET_Kind` pattern against `LOWER(event_name) LIKE`, newest first,
otherwise the input unchanged.  The exact-match `SELECT event_name ...
WHERE event_name = ?` returns the query value itself (TEXT `=` is
byte-wise). -/
def resolveCore (runs : List EventRunRow) (eventName : String) : String :=
  if eventName = "" then ""
  else if runs.any (fun r => r.eventName = eventName) then eventName
  else
    match reSetKindEventMatch eventName with
    | none => eventName
    | some sk => resolveLikeBranch runs eventName sk

/-- `resolveEventNameAlias` (store.go:124-174). -/
def resolveEventNameAlias (runs : List EventRunRow) (eventName : String) :
    String :=
  resolveCore runs (goTrim eventName)

/-- `matches` row (schema.sql:66-82). -/
structure MatchRow where
  id : Nat
  arenaMatchId : String
  eventName : Option String := none
  playerSeatId : Option Int := none
  opponentName : Option String := none
  opponentUserId : Option String := none
  startedAt : Option String := none
  endedAt : Option String := none
  result : Option String := none
  winReason : Option String := none
  turnCount : Option Int := none
  secondsCount : Option Int := none
  createdAt : String := ""
  updatedAt : String := ""
deriving DecidableEq, Repr

/-- `decks` row (schema.sql:41-51). -/
structure DeckRow where
  id : Nat
  arenaDeckId : String
  eventName : Option String := none
  name : Option String := none
  format : Option String := none
  source : Option String := none
  lastUpdated : Option String := none
  createdAt : String := ""
  updatedAt : String := ""
deriving DecidableEq, Repr

/-- `db.DeckCard` (store.go:26-30); the Go field `Section` is
`sectionName` here. -/
structure DeckCard where
  sectionName : String
  cardId : Int
  quantity : Int
deriving DecidableEq, Repr

/-- `deck_cards` row (schema.sql:55-62). -/
structure DeckCardRow where
  deckId : Nat
  sectionName : String
  cardId : Int
  quantity : Int
deriving DecidableEq, Repr

/-- `match_decks` row (schema.sql:87-96). -/
structure MatchDeckRow where
  matchId : Nat
  deckId : Nat
  snapshotReason : String
  createdAt : String := ""
deriving DecidableEq, Repr

/-- `match_card_plays` row (migration in the db package; key columns). -/
structure CardPlayRow where
  matchId : Nat
  gameNumber : Int
  instanceId : Int
  cardId : Int
  ownerSeatId : Int
  firstPublicZone : String
  turnNumber : Int
  phase : String
  playedAt : String
  source : String
deriving DecidableEq, Repr

/-- `match_opponent_card_instances` row (migration in the db package). -/
structure OppCardRow where
  matchId : Nat
  gameNumber : Int
  instanceId : Int
  cardId : Int
  firstSeenAt : String
  source : String
deriving DecidableEq, Repr

/-- The database: one list per table, plus autoincrement counters and a
count of `events_raw` rows (their content is irrelevant to the claims). -/
structure DB where
  eventRuns : List EventRunRow := []
  matchesTable : List MatchRow := []
  decks : List DeckRow := []
  deckCards : List DeckCardRow := []
  matchDecks : List MatchDeckRow := []
  cardPlays : List CardPlayRow := []
  oppCards : List OppCardRow := []
  rawEvents : Nat := 0
  nextMatchId : Nat := 1
  nextDeckId : Nat := 1
deriving DecidableEq, Repr

/-- The empty database. -/
def emptyDB : DB := {}

/-- The `ON CONFLICT(arena_deck_id) DO UPDATE` row function of `UpsertDeck`
(store.go:253-259). -/
def upsertDeckRowUpdate (eventName name format source lastUpdated now :
    String) (d : DeckRow) : DeckRow :=
  { d with
      eventName := coalesce (nullIfEmpty eventName) d.eventName,
      name := coalesce (nullIfEmpty name) d.name,
      format := coalesce (nullIfEmpty format) d.format,
      source := coalesce (nullIfEmpty source) d.source,
      lastUpdated := coalesce (nullIfEmpty lastUpdated) d.lastUpdated,
      updatedAt := now }

/-- `UpsertDeck` (store.go:245-289): upsert the deck row by
`arena_deck_id`, fetch its id, `DELETE FROM deck_cards WHERE deck_id = ?`,
then insert the submitted cards with positive quantity, in order. -/
def UpsertDeck (db : DB) (arenaDeckID eventName name format source
    lastUpdated : String) (cards : List DeckCard) (now : String) :
    Nat × DB :=
  let lastUpdated := normalizeTS lastUpdated
  let db1 : DB :=
    if db.decks.any (fun d => d.arenaDeckId = arenaDeckID) then
      { db with decks := db.decks.map (fun d =>
          if d.arenaDeckId = arenaDeckID then
            upsertDeckRowUpdate eventName name format source lastUpdated now d
          else d) }
    else
      { db with
          decks := db.decks ++
            [{ id := db.nextDeckId,
               arenaDeckId := arenaDeckID,
               eventName := nullIfEmpty eventName,
               name := nullIfEmpty name,
               format := nullIfEmpty format,
               source := nullIfEmpty source,
               lastUpdated := nullIfEmpty lastUpdated,
               createdAt := now, updatedAt := now }],
          nextDeckId := db.nextDeckId + 1 }
  let deckID :=
    ((db1.decks.find? (fun d => d.arenaDeckId = arenaDeckID)).map
      (fun d => d.id)).getD 0
  let keptCards := db1.deckCards.filter (fun c => ¬ c.deckId = deckID)
  let newRows :=
    (cards.filter (fun c => 0 < c.quantity)).map
      (fun c =>
        { deckId := deckID, sectionName := c.sectionName,
          cardId := c.cardId, quantity := c.quantity })
  let db3 := { db1 with deckCards := keptCards ++ newRows }
  (deckID, db3)

/-- `cardSectionCards` input element (the anonymous Go struct with
`cardId` and `quantity`). -/
structure DeckEntry where
  cardId : Int
  quantity : Int
deriving DecidableEq, Repr

/-- `cardSectionCards` (parser.go:545-557): keep only positive
quantities, tagging the section. -/
def cardSectionCards (sectionName : String) (cards : List DeckEntry) :
    List DeckCard :=
  (cards.filter (fun c => 0 < c.quantity)).map
    (fun c =>
      { sectionName := sectionName, cardId := c.cardId,
        quantity := c.quantity })

/-! ## Match and event-run operations (store.go:176-444) -/

/-- The `ON CONFLICT(arena_match_id) DO UPDATE` row function of
`UpsertMatchStart` (store.go:303-312); note `started_at` coalesces the
existing value first (never regressed). -/
def upsertMatchRowUpdate (resolved : String) (seatID : Int)
    (startedAt now : String) (r : MatchRow) : MatchRow :=
  { r with
      eventName := coalesce (nullIfEmpty resolved) r.eventName,
      playerSeatId := coalesce (nullableInt seatID) r.playerSeatId,
      startedAt := coalesce r.startedAt (nullIfEmpty startedAt),
      updatedAt := now }

/-- The fresh row inserted by `UpsertMatchStart` (store.go:303-312). -/
def newMatchRow (id : Nat) (arenaMatchID resolved : String) (seatID : Int)
    (startedAt now : String) : MatchRow :=
  { id := id, arenaMatchId := arenaMatchID,
    eventName := nullIfEmpty resolved,
    playerSeatId := nullableInt seatID,
    startedAt := nullIfEmpty startedAt,
    createdAt := now, updatedAt := now }

/-- The `event_runs` upsert at the end of `UpsertMatchStart`
(store.go:323-331): insert an active run or touch `updated_at`. -/
def ensureEventRun (db : DB) (resolved startedAt now : String) : DB :=
  if resolved = "" then db
  else if db.eventRuns.any (fun r => r.eventName = resolved) then
    { db with eventRuns := db.eventRuns.map (fun r =>
        if r.eventName = resolved then { r with updatedAt := now } else r) }
  else
    { db with eventRuns := db.eventRuns ++
        [{ eventName := resolved, eventType := detectEventType resolved,
           status := "active", startedAt := nullIfEmpty startedAt,
           endedAt := none, wins := 0, losses := 0, updatedAt := now }] }

/-- `UpsertMatchStart` (store.go:291-334). -/
def UpsertMatchStart (db : DB) (arenaMatchID eventName : String)
    (seatID : Int) (startedAt now : String) : Nat × DB :=
  let resolved :=
    if eventName = "" then eventName
    else resolveEventNameAlias db.eventRuns eventName
  let startedAt := normalizeTS startedAt
  let db1 :=
    if db.matchesTable.any (fun r => r.arenaMatchId = arenaMatchID) then
      { db with matchesTable := db.matchesTable.map (fun r =>
          if r.arenaMatchId = arenaMatchID then
            upsertMatchRowUpdate resolved seatID startedAt now r
          else r) }
    else
      { db with
          matchesTable := db.matchesTable ++
            [newMatchRow db.nextMatchId arenaMatchID resolved seatID
              startedAt now],
          nextMatchId := db.nextMatchId + 1 }
  let id :=
    ((db1.matchesTable.find? (fun r => r.arenaMatchId = arenaMatchID)).map
      (fun r => r.id)).getD 0
  (id, ensureEventRun db1 resolved startedAt now)

/-- `BumpEventRunRecord` (store.go:210-228). -/
def BumpEventRunRecord (db : DB) (eventName result now : String) : DB :=
  if eventName = "" ∨ (result ≠ "win" ∧ result ≠ "loss") then db
  else
    { db with eventRuns := db.eventRuns.map (fun r =>
        if r.eventName = eventName then
          (if result = "loss" then
            { r with losses := r.losses + 1, updatedAt := now }
          else { r with wins := r.wins + 1, updatedAt := now })
        else r) }

/-- The `UPDATE matches` row function of `UpdateMatchEnd`
(store.go:376-385). -/
def matchEndRowUpdate (result winReason endedAt : String)
    (turnCount secondsCount : Int) (now : String) (r : MatchRow) : MatchRow :=
  { r with
      endedAt := coalesce (nullIfEmpty endedAt) r.endedAt,
      result := some result,
      winReason := coalesce (nullIfEmpty winReason) r.winReason,
      turnCount := coalesce (nullableInt turnCount) r.turnCount,
      secondsCount := coalesce (nullableInt secondsCount) r.secondsCount,
      updatedAt := now }

/-- The ended-only row `UpdateMatchEnd` inserts when no match exists
(store.go:356-360); `ended_at` stores the (possibly empty) normalized
string itself, not NULL. -/
def endedOnlyMatchRow (id : Nat) (arenaMatchID endedAt now : String) :
    MatchRow :=
  { id := id, arenaMatchId := arenaMatchID, endedAt := some endedAt,
    createdAt := now, updatedAt := now }

/-- The result derivation of store.go:367-374. -/
def deriveResult (teamID winningTeamID : Int) : String :=
  if teamID > 0 ∧ winningTeamID > 0 then
    (if teamID = winningTeamID then "win" else "loss")
  else "unknown"

/-- `UpdateMatchEnd` (store.go:350-397), returning
`(eventName, result, database)`. -/
def UpdateMatchEnd (db : DB) (arenaMatchID : String)
    (teamID winningTeamID turnCount secondsCount : Int)
    (winReason endedAt now : String) : String × String × DB :=
  let endedAt := normalizeTS endedAt
  let fetch := db.matchesTable.find? (fun r => r.arenaMatchId = arenaMatchID)
  let eventName :=
    match fetch with
    | some r => r.eventName.getD ""
    | none => ""
  let db1 :=
    match fetch with
    | some _ => db
    | none =>
      { db with
          matchesTable := db.matchesTable ++
            [endedOnlyMatchRow db.nextMatchId arenaMatchID endedAt now],
          nextMatchId := db.nextMatchId + 1 }
  let result := deriveResult teamID winningTeamID
  let db2 :=
    { db1 with matchesTable := db1.matchesTable.map (fun r =>
        if r.arenaMatchId = arenaMatchID then
          matchEndRowUpdate result winReason endedAt turnCount secondsCount
            now r
        else r) }
  let db3 :=
    if eventName ≠ "" ∧ (result = "win" ∨ result = "loss") then
      BumpEventRunRecord db2 eventName result now
    else db2
  (eventName, result, db3)

/-- `UpdateMatchOpponent` (store.go:336-348). -/
def UpdateMatchOpponent (db : DB)
    (arenaMatchID opponentName opponentUserID now : String) : DB :=
  { db with matchesTable := db.matchesTable.map (fun r =>
      if r.arenaMatchId = arenaMatchID then
        { r with
            opponentName := coalesce (nullIfEmpty opponentName)
              r.opponentName,
            opponentUserId := coalesce (nullIfEmpty opponentUserID)
              r.opponentUserId,
            updatedAt := now }
      else r) }

/-- `COALESCE(last_updated, updated_at)` of store.go:424. -/
def deckOrderKey (d : DeckRow) : String :=
  d.lastUpdated.getD d.updatedAt

/-- `LinkMatchToLatestDeckByEvent` (store.go:399-444). -/
def LinkMatchToLatestDeckByEvent (db : DB)
    (arenaMatchID eventName reason now : String) : DB :=
  if eventName = "" then db
  else
    let aliasName := resolveEventNameAlias db.eventRuns eventName
    let eventName := if aliasName ≠ "" then aliasName else eventName
    match db.matchesTable.find? (fun r => r.arenaMatchId = arenaMatchID) with
    | none => db
    | some m =>
      match pickNewest deckOrderKey
          (db.decks.filter (fun d => d.eventName = some eventName)) with
      | none => db
      | some d =>
        if db.matchDecks.any
            (fun md => md.matchId = m.id ∧ md.deckId = d.id) then db
        else
          { db with matchDecks := db.matchDecks ++
              [{ matchId := m.id, deckId := d.id, snapshotReason := reason,
                 createdAt := now }] }

/-- Modelled from the spec: the store functions `UpsertMatchCardPlay` and
`UpsertMatchOpponentCardInstance` are called from parser.go:735/745 but
their bodies are not among the provided db sources; per the spec they are
keyed upserts on `(match, game_number, instance_id)` whose first-seen
values are never overwritten, with `game_number` defaulting to 1 when
absent — and the caller supplies no game number, so the schema default 1
always applies.  A call for an unknown match is a no-op. -/
def UpsertMatchCardPlay (db : DB) (arenaMatchID : String)
    (instanceID grpID ownerSeatID turnNumber : Int)
    (phase zoneType playedAt source : String) : DB :=
  match db.matchesTable.find? (fun r => r.arenaMatchId = arenaMatchID) with
  | none => db
  | some m =>
    if db.cardPlays.any (fun cp =>
        cp.matchId = m.id ∧ cp.gameNumber = 1 ∧ cp.instanceId = instanceID)
      then db
    else
      { db with cardPlays := db.cardPlays ++
          [{ matchId := m.id, gameNumber := 1, instanceId := instanceID,
             cardId := grpID, ownerSeatId := ownerSeatID,
             firstPublicZone := zoneType, turnNumber := turnNumber,
             phase := phase, playedAt := playedAt, source := source }] }

/-- Modelled from the spec: see `UpsertMatchCardPlay`. -/
def UpsertMatchOpponentCardInstance (db : DB) (arenaMatchID : String)
    (instanceID grpID : Int) (firstSeenAt source : String) : DB :=
  match db.matchesTable.find? (fun r => r.arenaMatchId = arenaMatchID) with
  | none => db
  | some m =>
    if db.oppCards.any (fun oc =>
        oc.matchId = m.id ∧ oc.gameNumber = 1 ∧ oc.instanceId = instanceID)
      then db
    else
      { db with oppCards := db.oppCards ++
          [{ matchId := m.id, gameNumber := 1, instanceId := instanceID,
             cardId := grpID, firstSeenAt := firstSeenAt,
             source := source }] }

/-! ## Decoded envelope shapes (parser.go:231-318)

These mirror the Go decode structures; fields absent from the JSON take
the Go zero values, and — decisively for C2 — `GreGameInfo` has no
`gameNumber` field because `greGameStateMsg.GameInfo` (parser.go:291-294)
declares only `matchID`, so a `"gameNumber"` key in the log line is
dropped at decode time. -/

/-- `greGameStateMsg.GameInfo` (parser.go:292-294). -/
structure GreGameInfo where
  matchID : String := ""
deriving DecidableEq, Repr

/-- `greTurnInfo` (parser.go:300-303). -/
structure GreTurnInfo where
  turnNumber : Int := 0
  phase : String := ""
deriving DecidableEq, Repr

/-- `greZone` (parser.go:305-308); the Go field `Type` is `zoneType`. -/
structure GreZone where
  zoneId : Int := 0
  zoneType : String := ""
deriving DecidableEq, Repr

/-- `greGameObject` (parser.go:310-318); the Go field `Type` is `typ`. -/
structure GreGameObject where
  instanceId : Int := 0
  grpId : Int := 0
  typ : String := ""
  zoneId : Int := 0
  visibility : String := ""
  ownerSeatId : Int := 0
  isToken : Bool := false
deriving DecidableEq, Repr

/-- `greGameStateMsg` (parser.go:291-298). -/
structure GreGameStateMsg where
  gameInfo : Option GreGameInfo := none
  turnInfo : Option GreTurnInfo := none
  zones : List GreZone := []
  gameObjects : List GreGameObject := []
deriving DecidableEq, Repr

/-- `greMessage` (parser.go:286-289). -/
structure GreMessage where
  systemSeatIds : List Int := []
  gameStateMessage : Option GreGameStateMsg := none
deriving DecidableEq, Repr

/-- `greEnvelope` (parser.go:279-284); the inner pointer-to-struct with a
single `greToClientMessages` list collapses to an optional list. -/
structure GreEnvelope where
  timestamp : String := ""
  greToClientEvent : Option (List GreMessage) := none
deriving DecidableEq, Repr

/-- `logBusinessEvent` (parser.go:231-243). -/
structure LogBusinessEvent where
  eventType : Int := 0
  eventTime : String := ""
  eventName : String := ""
  eventId : String := ""
  matchId : String := ""
  seatId : Int := 0
  teamId : Int := 0
  winningTeamId : Int := 0
  winningReason : String := ""
  turnCount : Int := 0
  secondsCount : Int := 0
deriving DecidableEq, Repr

/-- `roomPlayer` (parser.go:245-251). -/
structure RoomPlayer where
  userId : String := ""
  playerName : String := ""
  systemSeatId : Int := 0
  teamId : Int := 0
  eventId : String := ""
deriving DecidableEq, Repr

/-- `roomResultEntry` (parser.go:253-258). -/
structure RoomResultEntry where
  scope : String := ""
  result : String := ""
  winningTeamId : Int := 0
  reason : String := ""
deriving DecidableEq, Repr

/-- `FinalMatchResult` (parser.go:269-273). -/
structure FinalMatchResult where
  matchId : String := ""
  matchCompletedReason : String := ""
  resultList : List RoomResultEntry := []
deriving DecidableEq, Repr

/-- `GameRoomConfig` (parser.go:263-267). -/
structure GameRoomConfig where
  matchId : String := ""
  reservedPlayers : List RoomPlayer := []
deriving DecidableEq, Repr

/-- `GameRoomInfo` (parser.go:262-275). -/
structure GameRoomInfo where
  gameRoomConfig : Option GameRoomConfig := none
  stateType : String := ""
  finalMatchResult : Option FinalMatchResult := none
  players : List RoomPlayer := []
deriving DecidableEq, Repr

/-- `roomStateEnvelope` (parser.go:260-277): two pointer levels become a
nested `Option`. -/
structure RoomStateEnvelope where
  timestamp : String := ""
  matchGameRoomStateChangedEvent : Option (Option GameRoomInfo) := none
deriving DecidableEq, Repr

/-! ## Correlator handlers (parser.go:670-992) -/

/-- `roomEventName` (parser.go:597-605). -/
def roomEventName (players : List RoomPlayer) : String :=
  match players.find? (fun pl => ¬ goTrim pl.eventId = "") with
  | some pl => goTrim pl.eventId
  | none => ""

/-- `normalizeWinningReason` (parser.go:607-612). -/
def normalizeWinningReason (reason : String) : String :=
  goTrimPre "WinningReason_" (goTrimPre "ResultReason_" (goTrim reason))

/-- The loop of `chooseMatchResult` (parser.go:614-631) with fallback
accumulators. -/
def chooseMatchResultAux : List RoomResultEntry → Int → String → Int × String
  | [], fbTeam, fbReason => (fbTeam, fbReason)
  | r :: rest, fbTeam, fbReason =>
    if r.winningTeamId ≤ 0 then chooseMatchResultAux rest fbTeam fbReason
    else if goEqualFold (goTrim r.scope) "MatchScope_Match" then
      (r.winningTeamId, normalizeWinningReason r.reason)
    else if fbTeam = 0 then
      chooseMatchResultAux rest r.winningTeamId (normalizeWinningReason r.reason)
    else chooseMatchResultAux rest fbTeam fbReason

/-- `chooseMatchResult` (parser.go:614-631). -/
def chooseMatchResult (results : List RoomResultEntry) : Int × String :=
  chooseMatchResultAux results 0 ""

/-- The per-object step of the `gameObjects` loop (parser.go:718-748). -/
def greObjectStep (matchID : String) (seat turnNumber : Int)
    (phase eventTS : String) (st : ParseState) (db : DB)
    (obj : GreGameObject) : DB :=
  if obj.instanceId ≤ 0 ∨ obj.grpId ≤ 0 ∨ obj.ownerSeatId ≤ 0 then db
  else if ¬ goEqualFold (goTrim obj.typ) "GameObjectType_Card" then db
  else if ¬ goEqualFold (goTrim obj.visibility) "Visibility_Public" then db
  else
    let db :=
      if ¬ obj.isToken then
        let zoneType0 := stateZoneType st matchID obj.zoneId
        let zoneType :=
          if zoneType0 = "" then fallbackGREZoneType obj.zoneId else zoneType0
        if isTimelinePlayableZone zoneType then
          UpsertMatchCardPlay db matchID obj.instanceId obj.grpId
            obj.ownerSeatId turnNumber phase zoneType eventTS
            "gre_public_gameobject"
        else db
      else db
    if seat ≤ 0 ∨ obj.isToken ∨ obj.ownerSeatId = seat then db
    else
      UpsertMatchOpponentCardInstance db matchID obj.instanceId obj.grpId
        eventTS "gre_public_gameobject"

/-- One iteration of the message loop of `handleGREJSON`
(parser.go:680-749). -/
def handleGREMessage (eventTS now : String) (acc : DB × ParseState)
    (msg : GreMessage) : DB × ParseState :=
  match msg.gameStateMessage with
  | none => acc
  | some gsm =>
    let db := acc.1
    let st := acc.2
    let step1 : String × DB × ParseState :=
      match gsm.gameInfo with
      | some gi =>
        if goTrim gi.matchID = "" then (goTrim st.activeMatchID, db, st)
        else
          let mid := goTrim gi.matchID
          let seat0 := selfSeat st mid
          let seat :=
            if seat0 ≤ 0 then
              (match msg.systemSeatIds with
               | [s] => if s > 0 then s else seat0
               | _ => seat0)
            else seat0
          let db := (UpsertMatchStart db mid "" seat eventTS now).2
          let st := { st with activeMatchID := mid }
          let st := rememberSelfSeat st mid seat
          (mid, db, st)
      | none => (goTrim st.activeMatchID, db, st)
    let matchID := step1.1
    let db := step1.2.1
    let st := step1.2.2
    if matchID = "" then (db, st)
    else
      let st :=
        match gsm.turnInfo with
        | some ti =>
          rememberPhase (rememberTurn st matchID ti.turnNumber) matchID
            ti.phase
        | none => st
      let st := gsm.zones.foldl
        (fun s z => rememberZoneType s matchID z.zoneId z.zoneType) st
      let seat1 := selfSeat st matchID
      let step2 : Int × ParseState :=
        if seat1 ≤ 0 then
          match msg.systemSeatIds with
          | [s] =>
            if s > 0 then (s, rememberSelfSeat st matchID s) else (seat1, st)
          | _ => (seat1, st)
        else (seat1, st)
      let seat := step2.1
      let st := step2.2
      let turnNumber := stateTurn st matchID
      let phase := statePhase st matchID
      let db := gsm.gameObjects.foldl
        (greObjectStep matchID seat turnNumber phase eventTS st) db
      (db, st)

/-- `handleGREJSON` (parser.go:670-752) on a decoded envelope (an
undecodable line returns before reaching this logic). -/
def handleGREJSON (db : DB) (st : ParseState) (env : GreEnvelope)
    (now : String) : DB × ParseState :=
  match env.greToClientEvent with
  | none => (db, st)
  | some msgs =>
    let eventTS := parseRoomTimestamp env.timestamp
    msgs.foldl (handleGREMessage eventTS now) (db, st)

/-- The `LogBusinessEvents` branch of `handleOutgoing`
(parser.go:866-896): type 3 upserts a match start, remembers state and
links the latest deck; type 4 applies the match end. -/
def handleLogBusinessEvent (db : DB) (st : ParseState)
    (evt : LogBusinessEvent) (now : String) : DB × ParseState :=
  if evt.eventType = 3 then
    if evt.matchId = "" then (db, st)
    else
      let eventName := if evt.eventId = "" then evt.eventName else evt.eventId
      let db := (UpsertMatchStart db evt.matchId eventName evt.seatId
        evt.eventTime now).2
      let st := { st with activeMatchID := goTrim evt.matchId }
      let st := rememberSelfSeat st evt.matchId evt.seatId
      let db := LinkMatchToLatestDeckByEvent db evt.matchId eventName
        "pre_match" now
      (db, st)
  else if evt.eventType = 4 then
    if evt.matchId = "" then (db, st)
    else
      ((UpdateMatchEnd db evt.matchId evt.teamId evt.winningTeamId
        evt.turnCount evt.secondsCount evt.winningReason evt.eventTime
        now).2.2, st)
  else (db, st)

/-- Accumulator of the player scan in `handleRoomStateJSON`
(parser.go:928-960). -/
structure RoomScan where
  selfSeen : Bool
  selfSeatID : Int
  selfTeamID : Int
  opponentName : String
  opponentUserID : String
  st : ParseState
deriving DecidableEq, Repr

/-- One iteration of the player loop (parser.go:935-960). -/
def roomScanStep (personaID : String) (acc : RoomScan) (pl : RoomPlayer) :
    RoomScan :=
  let playerUserID := goTrim pl.userId
  let playerName := goTrim pl.playerName
  if personaID ≠ "" ∧ playerUserID = personaID then
    let acc := { acc with selfSeen := true }
    let acc :=
      if pl.systemSeatId > 0 then { acc with selfSeatID := pl.systemSeatId }
      else acc
    let acc :=
      if pl.teamId > 0 then { acc with selfTeamID := pl.teamId } else acc
    if acc.st.playerName = "" ∧ playerName ≠ "" then
      { acc with st := { acc.st with playerName := playerName } }
    else acc
  else
    if acc.opponentName = "" then
      if acc.st.playerName ≠ "" ∧
          goEqualFold playerName (goTrim acc.st.playerName) then acc
      else
        { acc with opponentName := playerName,
                   opponentUserID := playerUserID }
    else acc

/-- `handleRoomStateJSON` (parser.go:902-992) on a decoded envelope; the
trailing `InsertRawEvent` becomes a bump of the raw-event counter. -/
def handleRoomStateJSON (db : DB) (st : ParseState)
    (env : RoomStateEnvelope) (now : String) : DB × ParseState :=
  match env.matchGameRoomStateChangedEvent with
  | none => (db, st)
  | some none => (db, st)
  | some (some info) =>
    match info.gameRoomConfig with
    | none => (db, st)
    | some config =>
      if config.matchId = "" then (db, st)
      else
        let players :=
          if 0 < config.reservedPlayers.length then config.reservedPlayers
          else info.players
        let eventName0 := roomEventName config.reservedPlayers
        let eventName :=
          if eventName0 = "" then roomEventName players else eventName0
        let matchTS := parseRoomTimestamp env.timestamp
        let personaID := goTrim st.personaID
        let scan := players.foldl (roomScanStep personaID)
          { selfSeen := false, selfSeatID := 0, selfTeamID := 0,
            opponentName := "", opponentUserID := "", st := st }
        let st := scan.st
        let db := (UpsertMatchStart db config.matchId eventName
          scan.selfSeatID matchTS now).2
        let st := { st with activeMatchID := goTrim config.matchId }
        let st := rememberSelfSeat st config.matchId scan.selfSeatID
        let db :=
          if eventName ≠ "" then
            LinkMatchToLatestDeckByEvent db config.matchId eventName
              "room_state" now
          else db
        let db :=
          if scan.selfSeen ∧ (goTrim scan.opponentName ≠ "" ∨
              goTrim scan.opponentUserID ≠ "") then
            UpdateMatchOpponent db config.matchId scan.opponentName
              scan.opponentUserID now
          else db
        let db :=
          if goEqualFold (goTrim info.stateType)
              "MatchGameRoomStateType_MatchCompleted" ∧
              scan.selfTeamID > 0 then
            match info.finalMatchResult with
            | some fmr =>
              let wr := chooseMatchResult fmr.resultList
              if wr.1 > 0 then
                (UpdateMatchEnd db config.matchId scan.selfTeamID wr.1 0 0
                  wr.2 matchTS now).2.2
              else db
            | none => db
          else db
        ({ db with rawEvents := db.rawEvents + 1 }, st)

/-! ## C2 — game-number awareness of card-play/opponent rows

The repository's own test (`TestBestOfThreeTimelineAndOpponentCountsAreGameAware`)
feeds two game-state lines for the same match whose `gameInfo` carries
`"gameNumber":1` and then `"gameNumber":2` with the same `instanceId=101`,
and expects two `match_card_plays` rows (one per game) and game-aware
opponent counts.  The decode struct `greGameStateMsg.GameInfo`
(parser.go:291-294) has no gameNumber field and the store calls at
parser.go:735/745 pass none, so both lines decode to identical
`gameInfo` values; the embedded envelopes below are those decoded
values. -/

/-- The first test line (gameNumber 1 — dropped at decode). -/
def c2Envelope1 : GreEnvelope :=
  { timestamp := "1772330782309",
    greToClientEvent := some
      [{ systemSeatIds := [2],
         gameStateMessage := some
           { gameInfo := some { matchID := "match-bo3" },
             turnInfo := some { turnNumber := 2, phase := "Phase_Main1" },
             zones := [{ zoneId := 28, zoneType := "ZoneType_Battlefield" }],
             gameObjects :=
               [{ instanceId := 101, grpId := 5001,
                  typ := "GameObjectType_Card", zoneId := 28,
                  visibility := "Visibility_Public", ownerSeatId := 1,
                  isToken := false }] } }] }

/-- The second test line (gameNumber 2 — dropped at decode). -/
def c2Envelope2 : GreEnvelope :=
  { timestamp := "1772330782310",
    greToClientEvent := some
      [{ systemSeatIds := [2],
         gameStateMessage := some
           { gameInfo := some { matchID := "match-bo3" },
             turnInfo := some { turnNumber := 1, phase := "Phase_Main1" },
             zones := [{ zoneId := 28, zoneType := "ZoneType_Battlefield" }],
             gameObjects :=
               [{ instanceId := 101, grpId := 5001,
                  typ := "GameObjectType_Card", zoneId := 28,
                  visibility := "Visibility_Public", ownerSeatId := 1,
                  isToken := false }] } }] }

/-! ## C3/C10 — event-run win/loss counting and match-end row creation -/

/-- `wins + losses` of the first `event_runs` row whose `event_name` equals
`name` (the row an exact-name SELECT returns first); 0 when no row matches. -/
def runTotal (runs : List EventRunRow) (name : String) : Int :=
  match runs.find? (fun q => q.eventName = name) with
  | some q => q.wins + q.losses
  | none => 0

/-- The C3 scenario: the `type=3` start business event (parser.go:866-884). -/
def c3Start : LogBusinessEvent :=
  { eventType := 3, eventTime := "2025-03-01T10:00:00Z",
    eventId := "Traditional_Ladder", matchId := "m-c3", seatId := 2 }

/-- The C3 scenario: the `type=4` end business event (parser.go:889-896). -/
def c3End : LogBusinessEvent :=
  { eventType := 4, eventTime := "2025-03-01T10:30:00Z", matchId := "m-c3",
    teamId := 2, winningTeamId := 2, winningReason := "ResultReason_Game",
    turnCount := 9, secondsCount := 600 }

/-- The C3 scenario: the decoded `MatchGameRoomStateChangedEvent` envelope
whose room is `MatchCompleted` for the same match, with a decisive
`MatchScope_Match` result for the self team. -/
def c3Room : RoomStateEnvelope :=
  { timestamp := "1772330782309",
    matchGameRoomStateChangedEvent := some (some
      { gameRoomConfig := some
          { matchId := "m-c3",
            reservedPlayers :=
              [{ userId := "opp-user", playerName := "Opp",
                 systemSeatId := 1, teamId := 1,
                 eventId := "Traditional_Ladder" },
               { userId := "self-user", playerName := "Me",
                 systemSeatId := 2, teamId := 2,
                 eventId := "Traditional_Ladder" }] },
        stateType := "MatchGameRoomStateType_MatchCompleted",
        finalMatchResult := some
          { matchId := "m-c3",
            resultList := [{ scope := "MatchScope_Match",
                             winningTeamId := 2,
                             reason := "ResultReason_Game" }] } }) }

/-- The C3 scenario: a parse state that has already learned the persona id
matching the self player of `c3Room`. -/
def c3State : ParseState := { emptyParseState with personaID := "self-user" }

/-! ## Theorems -/

/-! ### Trim idempotence -/

theorem dropWhile_dropWhile (p : Char → Bool) (l : List Char) :
    (l.dropWhile p).dropWhile p = l.dropWhile p := by
  induction l with
  | nil => simp
  | cons c t ih =>
    by_cases h : p c
    · simp [List.dropWhile, h, ih]
    · simp [List.dropWhile, h]

theorem dropWhile_length_le (p : Char → Bool) (l : List Char) :
    (l.dropWhile p).length ≤ l.length := by
  induction l with
  | nil => simp
  | cons c t ih =>
    by_cases h : p c
    · simp only [List.dropWhile, h]
      simpa using Nat.le_succ_of_le ih
    · simp [List.dropWhile, h]

theorem dropWhile_cons_self (p : Char → Bool) (c : Char) (t : List Char)
    (h : (c :: t).dropWhile p = c :: t) : p c = false := by
  by_contra hcontra
  have hc : p c = true := by revert hcontra; cases p c <;> simp
  have h2 : t.dropWhile p = c :: t := by
    simpa [List.dropWhile, hc] using h
  have hl := congrArg List.length h2
  have hle := dropWhile_length_le p t
  simp at hl
  omega

theorem dropWhile_append_last (p : Char → Bool) (c : Char) (hc : p c = false)
    (l : List Char) : (l ++ [c]).dropWhile p = l.dropWhile p ++ [c] := by
  induction l with
  | nil => simp [List.dropWhile, hc]
  | cons a t ih =>
    by_cases h : p a
    · simp [List.dropWhile, h, ih]
    · simp [List.dropWhile, h]

theorem trimChars_self (l : List Char) :
    trimChars (trimChars l) = trimChars l := by
  unfold trimChars
  set a := l.dropWhile isGoSpace with ha
  set b := a.reverse.dropWhile isGoSpace with hb
  -- leading trim of `b.reverse` is `b.reverse` again
  have hlead : b.reverse.dropWhile isGoSpace = b.reverse := by
    rcases hcons : a with _ | ⟨c, t⟩
    · simp [hb, hcons]
    · have hself : a.dropWhile isGoSpace = a := by
        rw [ha]; exact dropWhile_dropWhile _ _
      have hc : isGoSpace c = false :=
        dropWhile_cons_self isGoSpace c t (by rw [← hcons]; exact hself)
      have hrev : a.reverse = t.reverse ++ [c] := by simp [hcons]
      rw [hb, hrev, dropWhile_append_last isGoSpace c hc t.reverse,
        List.reverse_append]
      simp [List.dropWhile, hc]
  calc ((b.reverse.dropWhile isGoSpace).reverse.dropWhile isGoSpace).reverse
      = (b.reverse.reverse.dropWhile isGoSpace).reverse := by rw [hlead]
    _ = (b.dropWhile isGoSpace).reverse := by rw [List.reverse_reverse]
    _ = b.reverse := by rw [hb, dropWhile_dropWhile]

theorem goTrim_goTrim (s : String) : goTrim (goTrim s) = goTrim s := by
  unfold goTrim
  rw [List.toList_asString, trimChars_self]

theorem goTrim_empty : goTrim "" = "" := rfl

/-- C7: `parseRoomTimestamp` treats a parsed decimal value in
`[10^12, 10^13)` as milliseconds since epoch and one in `[10^9, 10^10)` as
seconds since epoch, and yields the absent value for any other magnitude
or for non-numeric input; concretely, `"1772330782273"` (ms) and
`"1772330782"` (s) normalize to the same wall-clock second, and `"12345"`
is absent. -/
theorem parseRoomTimestamp_magnitudes :
    (∀ s v, goParseInt64 (goTrim s) = some v →
      parseRoomTimestampMs s =
        (if 1000000000000 ≤ v ∧ v < 10000000000000 then some v
         else if 1000000000 ≤ v ∧ v < 10000000000 then some (v * 1000)
         else none)) ∧
    (∀ s, goParseInt64 (goTrim s) = none → parseRoomTimestampMs s = none) ∧
    (parseRoomTimestampMs "1772330782273").map instantSecond = some 1772330782 ∧
    (parseRoomTimestampMs "1772330782").map instantSecond = some 1772330782 ∧
    parseRoomTimestampMs "12345" = none := by
  refine ⟨?_, ?_, by decide, by decide, by decide⟩
  · intro s v h
    unfold parseRoomTimestampMs
    by_cases he : goTrim s = ""
    · rw [he] at h
      simp [goParseInt64] at h
    · simp only [he, if_false, h]
  · intro s h
    unfold parseRoomTimestampMs
    by_cases he : goTrim s = ""
    · simp [he]
    · simp only [he, if_false, h]

/-- Witness for C7 at the concrete millisecond-magnitude input. -/
theorem parseRoomTimestamp_magnitudes_witness :
    parseRoomTimestampMs "1772330782273" = some 1772330782273 := by
  have h := parseRoomTimestamp_magnitudes.1 "1772330782273" 1772330782273
    (by decide)
  rw [if_pos (by decide)] at h
  exact h

theorem goReadString_join : ∀ cs : List Char,
    (goReadString cs).1 ++ (goReadString cs).2 = cs := by
  intro cs
  induction cs with
  | nil => rfl
  | cons c t ih =>
    by_cases h : c = '\n'
    · simp [goReadString, h]
    · simp [goReadString, h, ih]

theorem goReadString_snd_lt : ∀ cs : List Char, cs ≠ [] →
    (goReadString cs).2.length < cs.length := by
  intro cs
  induction cs with
  | nil => intro h; exact absurd rfl h
  | cons c t ih =>
    intro _
    by_cases h : c = '\n'
    · simp [goReadString, h]
    · have hstep : (goReadString (c :: t)).2 = (goReadString t).2 := by
        simp [goReadString, h]
      rw [hstep, List.length_cons]
      cases t with
      | nil => simp [goReadString]
      | cons d u =>
        have h2 := ih (List.cons_ne_nil d u)
        omega

theorem goReadString_no_newline (b : List Char) (hnl : '\n' ∉ b) :
    goReadString b = (b, []) := by
  induction b with
  | nil => rfl
  | cons c t ih =>
    have hc : ¬ c = '\n' := fun h => hnl (by rw [h]; exact List.mem_cons_self _ _)
    have ht : '\n' ∉ t := fun h => hnl (List.mem_cons_of_mem _ h)
    simp [goReadString, hc, ih ht]

theorem goReadString_append (a x : List Char) (ha : '\n' ∈ a) :
    goReadString (a ++ x) = ((goReadString a).1, (goReadString a).2 ++ x) := by
  induction a with
  | nil => exact absurd ha (List.not_mem_nil _)
  | cons c t ih =>
    by_cases h : c = '\n'
    · simp [goReadString, h]
    · have ht : '\n' ∈ t := by
        rcases List.mem_cons.mp ha with h1 | h1
        · exact absurd h1.symm h
        · exact h1
      simp [goReadString, h, ih ht]

theorem parseFileReadAux_nil (n : Nat) : parseFileReadAux n [] = ([], 0) := by
  cases n <;> rfl

theorem parseFileReadAux_fuel : ∀ n m cs, cs.length ≤ n → cs.length ≤ m →
    parseFileReadAux n cs = parseFileReadAux m cs := by
  intro n
  induction n with
  | zero =>
    intro m cs hn _
    have : cs = [] := List.length_eq_zero.mp (Nat.le_zero.mp hn)
    subst this
    rw [parseFileReadAux_nil, parseFileReadAux_nil]
  | succ n ih =>
    intro m cs hn hm
    cases cs with
    | nil => rw [parseFileReadAux_nil, parseFileReadAux_nil]
    | cons c t =>
      cases m with
      | zero => simp at hm
      | succ m =>
        have hlt : (goReadString (c :: t)).2.length ≤ t.length := by
          have h1 := goReadString_snd_lt (c :: t) (List.cons_ne_nil c t)
          simp only [List.length_cons] at h1
          omega
        have hn2 : t.length + 1 ≤ n + 1 := by simpa using hn
        have hm2 : t.length + 1 ≤ m + 1 := by simpa using hm
        have hrec := ih m (goReadString (c :: t)).2 (by omega) (by omega)
        simp only [parseFileReadAux]
        rw [hrec]

/-- C1 counterexample: on the file `"a\nbc"`, whose final line `bc` has no
terminating newline, the read loop emits `bc` anyway and advances the
committed byte offset by 4 bytes (past the start of that line at offset 2). -/
theorem parseFileRead_partial_line_cex :
    (parseFileRead ("a\nbc".toList)).1 = [['a', '\n'], ['b', 'c']] ∧
    (parseFileRead ("a\nbc".toList)).2 = 4 := by
  constructor <;> rfl

/-- C1 (amended): for every file `a ++ b` whose final line `b` lacks a
newline (all complete lines `a` before it), the read loop emits the
complete lines of `a` followed by the incomplete line `b`, and the
committed byte offset advances past end of file. -/
theorem parseFileReadAux_step (n : Nat) (cs : List Char) (h : cs ≠ []) :
    parseFileReadAux (n + 1) cs =
      ((goReadString cs).1 :: (parseFileReadAux n (goReadString cs).2).1,
        (goReadString cs).1.length + (parseFileReadAux n (goReadString cs).2).2) := by
  cases cs with
  | nil => exact absurd rfl h
  | cons c t => rfl

theorem parseFileRead_final_line (a b : List Char) (hb : b ≠ [])
    (hnl : '\n' ∉ b) (ha : a = [] ∨ a.getLast? = some '\n') :
    parseFileRead (a ++ b) = ((parseFileRead a).1 ++ [b], a.length + b.length) := by
  have main : ∀ n a, a.length + b.length ≤ n → (a = [] ∨ a.getLast? = some '\n') →
      parseFileReadAux n (a ++ b) =
        ((parseFileReadAux n a).1 ++ [b], a.length + b.length) := by
    intro n
    induction n with
    | zero =>
      intro a hlen _
      have hb0 : b = [] := List.length_eq_zero.mp (show b.length = 0 by omega)
      exact absurd hb0 hb
    | succ n ih =>
      intro a hlen hlast
      by_cases hane : a = []
      · subst hane
        rw [List.nil_append, parseFileReadAux_step n b hb,
          goReadString_no_newline b hnl]
        simp [parseFileReadAux_nil]
      · have hmem : '\n' ∈ a := by
          rcases hlast with h | h
          · exact absurd h hane
          · exact List.mem_of_mem_getLast? h
        have hsplit := goReadString_append a b hmem
        have hjoin : (goReadString a).1 ++ (goReadString a).2 = a :=
          goReadString_join a
        have ha2lt : (goReadString a).2.length < a.length :=
          goReadString_snd_lt a hane
        have hl1len : (goReadString a).1.length + (goReadString a).2.length
            = a.length := by
          have h3 := congrArg List.length hjoin
          simpa using h3
        have ha2last : (goReadString a).2 = [] ∨
            (goReadString a).2.getLast? = some '\n' := by
          rcases hcase : (goReadString a).2 with _ | ⟨d, u⟩
          · exact Or.inl rfl
          · right
            rcases hlast with h | h
            · exact absurd h hane
            · have hsplit2 : (goReadString a).1 ++ (d :: u) = a := by
                rw [← hcase]; exact hjoin
              rw [← hsplit2, List.getLast?_append_of_ne_nil _
                (List.cons_ne_nil d u)] at h
              exact h
        have hih := ih (goReadString a).2 (by omega) ha2last
        have habne : a ++ b ≠ [] := by
          intro hcontra
          exact hane (List.append_eq_nil.mp hcontra).1
        rw [parseFileReadAux_step n (a ++ b) habne, hsplit, hih,
          parseFileReadAux_step n a hane]
        simp only [List.cons_append, Prod.mk.injEq, true_and]
        omega
  have h1 := main ((a ++ b).length) a (by simp) ha
  have h2 := parseFileReadAux_fuel ((a ++ b).length) a.length a
    (by simp) le_rfl
  unfold parseFileRead
  rw [h1, h2]

/-- Witness for the amended C1 theorem at the concrete file `"a\nbc"`. -/
theorem parseFileRead_final_line_witness :
    parseFileRead ("a\nbc".toList) =
      ((parseFileRead ("a\n".toList)).1 ++ [['b', 'c']], 2 + 2) :=
  parseFileRead_final_line ("a\n".toList) ['b', 'c'] (by decide) (by decide)
    (Or.inr (by decide))

theorem parseFileCommits_all_ok :
    ∀ (lines : List (Nat × Bool)) (stored : Nat × Nat) (off line since : Nat),
      (∀ p ∈ lines, p.2 = true) →
      parseFileCommits stored off line since lines =
        ((off + (lines.map Prod.fst).sum, line + lines.length), true) := by
  intro lines
  induction lines with
  | nil => intro stored off line since _; simp [parseFileCommits]
  | cons p rest ih =>
    intro stored off line since hok
    obtain ⟨len, okLine⟩ := p
    have hhead : okLine = true := hok (len, okLine) (List.mem_cons_self _ _)
    subst hhead
    have htail : ∀ q ∈ rest, q.2 = true :=
      fun q hq => hok q (List.mem_cons_of_mem _ hq)
    by_cases hs : since + 1 ≥ 500
    · have hstep : parseFileCommits stored off line since ((len, true) :: rest)
          = parseFileCommits (off + len, line + 1) (off + len) (line + 1) 0
              rest := by
        simp [parseFileCommits, hs]
      rw [hstep, ih _ _ _ _ htail]
      simp only [List.map_cons, List.sum_cons, List.length_cons,
        Prod.mk.injEq, and_true, true_and]
      exact ⟨by omega, by omega⟩
    · have hstep : parseFileCommits stored off line since ((len, true) :: rest)
          = parseFileCommits stored (off + len) (line + 1) (since + 1) rest := by
        simp [parseFileCommits, hs]
      rw [hstep, ih _ _ _ _ htail]
      simp only [List.map_cons, List.sum_cons, List.length_cons,
        Prod.mk.injEq, and_true, true_and]
      exact ⟨by omega, by omega⟩

/-- No commit happens while the open transaction holds fewer than 500
lines, so a failure rolls back to the entry `stored` value. -/
theorem parseFileCommits_short_fail :
    ∀ (good : List (Nat × Bool)) (stored : Nat × Nat)
      (off line since blen : Nat) (rest : List (Nat × Bool)),
      (∀ p ∈ good, p.2 = true) → good.length + since < 500 →
      parseFileCommits stored off line since
          (good ++ (blen, false) :: rest) = (stored, false) := by
  intro good
  induction good with
  | nil =>
    intro stored off line since blen rest _ _
    simp [parseFileCommits]
  | cons p g ih =>
    intro stored off line since blen rest hok hlen
    obtain ⟨len, okLine⟩ := p
    have hhead : okLine = true := hok (len, okLine) (List.mem_cons_self _ _)
    subst hhead
    have htail : ∀ q ∈ g, q.2 = true :=
      fun q hq => hok q (List.mem_cons_of_mem _ hq)
    have hs : ¬ since + 1 ≥ 500 := by
      simp only [List.length_cons] at hlen; omega
    have hstep : parseFileCommits stored off line since
        (((len, true) :: g) ++ (blen, false) :: rest)
        = parseFileCommits stored (off + len) (line + 1) (since + 1)
            (g ++ (blen, false) :: rest) := by
      simp [parseFileCommits, hs]
    rw [hstep]
    exact ih stored (off + len) (line + 1) (since + 1) blen rest htail
      (by simp only [List.length_cons] at hlen; omega)

/-- Finishing the open transaction: when the lines of `g` are exactly the
500 - `since` that fill the open batch and all succeed, processing them
ends with a commit that stores the boundary after them and opens a fresh
transaction. -/
theorem parseFileCommits_batch :
    ∀ (g : List (Nat × Bool)) (stored : Nat × Nat) (off line since : Nat)
      (tail : List (Nat × Bool)),
      (∀ p ∈ g, p.2 = true) → 1 ≤ g.length → since + g.length = 500 →
      parseFileCommits stored off line since (g ++ tail) =
        parseFileCommits (off + (g.map Prod.fst).sum, line + g.length)
          (off + (g.map Prod.fst).sum) (line + g.length) 0 tail := by
  intro g
  induction g with
  | nil => intro stored off line since tail _ h1 _; simp at h1
  | cons p g ih =>
    intro stored off line since tail hok _ hfull
    obtain ⟨len, okLine⟩ := p
    have hhead : okLine = true := hok (len, okLine) (List.mem_cons_self _ _)
    subst hhead
    have htail : ∀ q ∈ g, q.2 = true :=
      fun q hq => hok q (List.mem_cons_of_mem _ hq)
    simp only [List.length_cons] at hfull
    by_cases hg : g.length = 0
    · have hgnil : g = [] := List.length_eq_zero.mp hg
      subst hgnil
      have hs : since + 1 ≥ 500 := by simp at hfull; omega
      simp [parseFileCommits, hs]
    · have hs : ¬ since + 1 ≥ 500 := by omega
      have hstep : parseFileCommits stored off line since
          (((len, true) :: g) ++ tail)
          = parseFileCommits stored (off + len) (line + 1) (since + 1)
              (g ++ tail) := by
        simp [parseFileCommits, hs]
      rw [hstep, ih stored (off + len) (line + 1) (since + 1) tail htail
        (by omega) (by omega)]
      have h1 : off + len + (List.map Prod.fst g).sum
          = off + (List.map Prod.fst ((len, true) :: g)).sum := by
        simp only [List.map_cons, List.sum_cons]; omega
      have h2 : line + 1 + g.length = line + ((len, true) :: g).length := by
        simp only [List.length_cons]; omega
      rw [h1, h2]

/-- A failing line rolls the open transaction back: the stored boundary is
the one committed by the last full batch of 500 processed lines (the value
the row held when the failing transaction began). -/
theorem parseFileCommits_fail :
    ∀ (k : Nat) (good : List (Nat × Bool)) (stored : Nat × Nat)
      (off line blen : Nat) (rest : List (Nat × Bool)),
      (∀ p ∈ good, p.2 = true) → good.length < 500 * k + 500 →
      parseFileCommits stored off line 0 (good ++ (blen, false) :: rest) =
        (if good.length < 500 then stored
         else boundaryAfter off line good (500 * (good.length / 500)), false) := by
  intro k
  induction k with
  | zero =>
    intro good stored off line blen rest hok hlt
    rw [if_pos (by omega)]
    exact parseFileCommits_short_fail good stored off line 0 blen rest hok
      (by omega)
  | succ k ih =>
    intro good stored off line blen rest hok hlt
    by_cases hshort : good.length < 500
    · rw [if_pos hshort]
      exact parseFileCommits_short_fail good stored off line 0 blen rest hok
        (by omega)
    · rw [if_neg hshort]
      have hge : 500 ≤ good.length := by omega
      set g1 := good.take 500 with hg1
      set g2 := good.drop 500 with hg2
      have hsplit : good = g1 ++ g2 := (List.take_append_drop 500 good).symm
      have hlen1 : g1.length = 500 := by
        rw [hg1, List.length_take]; omega
      have hlen2 : g2.length = good.length - 500 := by
        rw [hg2, List.length_drop]
      have hok1 : ∀ p ∈ g1, p.2 = true :=
        fun p hp => hok p (List.take_subset 500 good hp)
      have hok2 : ∀ p ∈ g2, p.2 = true :=
        fun p hp => hok p (List.drop_subset 500 good hp)
      have hassoc : good ++ (blen, false) :: rest
          = g1 ++ (g2 ++ (blen, false) :: rest) := by
        rw [hsplit, List.append_assoc]
      rw [hassoc, parseFileCommits_batch g1 stored off line 0
        (g2 ++ (blen, false) :: rest) hok1 (by omega) (by omega)]
      rw [ih g2 _ _ _ blen rest hok2 (by omega)]
      have hsum : ∀ m : Nat,
          off + (g1.map Prod.fst).sum + ((g2.take m).map Prod.fst).sum
            = off + ((good.take (500 + m)).map Prod.fst).sum := by
        intro m
        have htk : good.take (500 + m) = g1 ++ g2.take m := by
          rw [hg1, hg2, List.take_add]
        rw [htk, List.map_append, List.sum_append]
        omega
      by_cases hg2s : g2.length < 500
      · rw [if_pos hg2s]
        have hdiv : good.length / 500 = 1 := by
          apply Nat.div_eq_of_lt_le <;> omega
        unfold boundaryAfter
        rw [hdiv, Nat.mul_one, hlen1, hg1]
      · rw [if_neg hg2s]
        unfold boundaryAfter
        have hdiv : good.length / 500 = g2.length / 500 + 1 := by
          rw [hlen2]
          rw [Nat.div_eq_sub_div (by omega) hge]
        rw [hdiv]
        have hmul : 500 * (g2.length / 500 + 1)
            = 500 + 500 * (g2.length / 500) := by ring
        rw [hmul, ← hsum (500 * (g2.length / 500))]
        have harith : line + 500 + 500 * (g2.length / 500)
            = line + (500 + 500 * (g2.length / 500)) := by omega
        rw [hlen1, harith]

/-- C4: the `IngestState` row advances only with the transaction that
commits a batch.  If every line succeeds, the final commit stores the
boundary after all lines (parser.go:429-434); if processing fails at some
line, the stored row is the boundary committed by the last successful
batch of 500 lines — the value it had when the failing transaction began —
and the start value when no batch had committed yet. -/
theorem saveIngestState_transactional :
    (∀ (lines : List (Nat × Bool)) (startOff startLine : Nat),
      (∀ p ∈ lines, p.2 = true) →
      parseFileCommits (startOff, startLine) startOff startLine 0 lines =
        ((startOff + (lines.map Prod.fst).sum, startLine + lines.length),
          true)) ∧
    (∀ (good : List (Nat × Bool)) (blen : Nat) (rest : List (Nat × Bool))
      (startOff startLine : Nat),
      (∀ p ∈ good, p.2 = true) →
      parseFileCommits (startOff, startLine) startOff startLine 0
          (good ++ (blen, false) :: rest) =
        (if good.length < 500 then (startOff, startLine)
         else boundaryAfter startOff startLine good
           (500 * (good.length / 500)), false)) := by
  constructor
  · intro lines startOff startLine hok
    exact parseFileCommits_all_ok lines (startOff, startLine) startOff
      startLine 0 hok
  · intro good blen rest startOff startLine hok
    exact parseFileCommits_fail good.length good (startOff, startLine)
      startOff startLine blen rest hok (by omega)

/-- Witness for C4: a run over two lines that fails at the second line
keeps the stored boundary at the start values, and a fully successful run
over the same first line advances it. -/
theorem saveIngestState_transactional_witness :
    parseFileCommits (7, 1) 7 1 0 [(3, true), (4, false)] = ((7, 1), false) ∧
    parseFileCommits (7, 1) 7 1 0 [(3, true)] = ((10, 2), true) := by
  constructor
  · have h := saveIngestState_transactional.2 [(3, true)] 4 [] 7 1
      (by decide)
    rw [if_pos (by decide)] at h
    exact h
  · have h := saveIngestState_transactional.1 [(3, true)] 7 1 (by decide)
    simpa using h

/-- C5: when the saved offset exceeds the current file size on a resume
run, `ParseFile` restarts from offset 0, line 0, and the correlator's
in-memory state for that path is replaced by a fresh empty state. -/
theorem rotation_resets_state (saved : Int × Int) (size : Int)
    (stateByLog : List (String × ParseState)) (logPath : String)
    (hgt : saved.1 > size) :
    parseStartConfig true (some saved) size = (0, 0, true) ∧
    (stateForLog stateByLog logPath true).1 = emptyParseState ∧
    (goTrim logPath ≠ "" →
      alistFind (stateForLog stateByLog logPath true).2 (goTrim logPath) =
        some emptyParseState) := by
  refine ⟨?_, ?_, ?_⟩
  · obtain ⟨o, l⟩ := saved
    simp only at hgt
    unfold parseStartConfig
    by_cases h0 : o = 0 ∧ l = 0
    · simp [h0]
    · simp only [h0, if_false, if_true]
      rw [if_pos hgt]
  · unfold stateForLog
    by_cases hk : goTrim logPath = ""
    · simp [hk]
    · simp [hk]
  · intro hk
    unfold stateForLog
    simp only [hk, if_false, if_true]
    unfold alistPut alistFind
    by_cases hmem :
        (stateByLog.find? (fun p => p.1 = goTrim logPath)).isSome
    · rw [if_pos hmem]
      induction stateByLog with
      | nil => simp at hmem
      | cons p rest ih =>
        by_cases hp : p.1 = goTrim logPath
        · simp [List.find?, hp]
        · have hmem2 : (rest.find? (fun q => q.1 = goTrim logPath)).isSome := by
            simpa [List.find?_cons, hp] using hmem
          simpa [List.find?_cons, hp] using ih hmem2
    · rw [if_neg hmem]
      induction stateByLog with
      | nil => simp [List.find?]
      | cons p rest ih =>
        by_cases hp : p.1 = goTrim logPath
        · exfalso
          apply hmem
          simp [List.find?_cons, hp]
        · have hmem2 :
              ¬ (rest.find? (fun q => q.1 = goTrim logPath)).isSome := by
            intro hc
            apply hmem
            simpa [List.find?_cons, hp] using hc
          simpa [List.find?_cons, hp] using ih hmem2

/-- Witness for C5 at a concrete saved state, size and path map. -/
theorem rotation_resets_state_witness :
    parseStartConfig true (some (120, 4)) 40 = (0, 0, true) ∧
    (stateForLog [("p", { personaID := "x" })] "p" true).1
      = emptyParseState ∧
    (goTrim "p" ≠ "" →
      alistFind (stateForLog [("p", { personaID := "x" })] "p" true).2
        (goTrim "p") = some emptyParseState) :=
  rotation_resets_state (120, 4) 40 [("p", { personaID := "x" })] "p"
    (by decide)

theorem screenNameStep_personaID (st : ParseState) (line : String) :
    (screenNameStep st line).personaID = st.personaID := by
  unfold screenNameStep
  by_cases h : st.playerName = ""
  · rw [if_pos h]
    rcases hsn : reScreenNameFind line with _ | v
    · rfl
    · rfl
  · rw [if_neg h]

theorem personaStep2_none (st : ParseState) (line : String)
    (hmt : rePersonaMatchToFind line = none) :
    personaStep2 st line = st := by
  unfold personaStep2
  by_cases h : st.personaID = ""
  · rw [if_pos h, hmt]
  · rw [if_neg h]

theorem personaStep3_none (st : ParseState) (line : String)
    (hci : reClientIDFind line = none) :
    personaStep3 st line = st := by
  unfold personaStep3
  by_cases h : st.personaID = ""
  · rw [if_pos h, hci]
  · rw [if_neg h]

theorem personaStep1_filtered (st : ParseState) (line : String)
    (hp : st.personaID = "") :
    (personaStep1 st line).personaID = "" ∨
      goHasPre (personaStep1 st line).personaID "NoInstallID" = false := by
  unfold personaStep1
  rcases hm : personaPlainOrEscaped line with _ | id
  · exact Or.inl hp
  · by_cases hni : goHasPre id "NoInstallID"
    · left
      show (if goHasPre id "NoInstallID" = true then st
        else { st with personaID := id }).personaID = ""
      rw [if_pos hni]
      exact hp
    · have hni2 : goHasPre id "NoInstallID" = false := by
        revert hni; cases goHasPre id "NoInstallID" <;> simp
      right
      show goHasPre (if goHasPre id "NoInstallID" = true then st
        else { st with personaID := id }).personaID "NoInstallID" = false
      rw [if_neg hni]
      exact hni2

/-- C8 counterexample: a line matching `Match to <id>:` assigns a
`NoInstallID`-prefixed persona id, because the rejection at parser.go:453
guards only the PersonaId patterns. -/
theorem personaID_noInstallID_cex :
    (processLineIdentity emptyParseState "Match to NoInstallID123:").personaID
      = "NoInstallID123" ∧
    goHasPre "NoInstallID123" "NoInstallID" = true := by
  constructor
  · rfl
  · rfl

/-- C8 (amended): the persona id is sticky — once non-empty it is never
reassigned — and on lines matching neither the `Match to` nor the
`clientId` pattern a newly learned persona id is never `NoInstallID`-
prefixed (those two unfiltered patterns can assign such a value). -/
theorem personaID_sticky_and_filtered :
    (∀ st line, st.personaID ≠ "" →
      (processLineIdentity st line).personaID = st.personaID) ∧
    (∀ st line,
      rePersonaMatchToFind (goTrim line) = none →
      reClientIDFind (goTrim line) = none →
      goHasPre (processLineIdentity st line).personaID "NoInstallID" = false ∨
        (processLineIdentity st line).personaID = st.personaID) := by
  constructor
  · intro st line hp
    unfold processLineIdentity
    by_cases h0 : goTrim line = ""
    · simp [h0]
    · simp only [h0, if_false]
      rw [screenNameStep_personaID]
      unfold personaUpdate
      rw [if_neg hp]
  · intro st line hmt hci
    unfold processLineIdentity
    by_cases h0 : goTrim line = ""
    · right; simp [h0]
    · simp only [h0, if_false]
      rw [screenNameStep_personaID]
      unfold personaUpdate
      by_cases hp : st.personaID = ""
      · rw [if_pos hp,
          personaStep2_none (personaStep1 st (goTrim line)) (goTrim line) hmt,
          personaStep3_none (personaStep1 st (goTrim line)) (goTrim line) hci]
        rcases personaStep1_filtered st (goTrim line) hp with h | h
        · right; rw [h, hp]
        · left; exact h
      · right; rw [if_neg hp]

/-- Witness for the amended C8 theorem: a non-empty persona id survives a
later PersonaId line, and a plain-PersonaId line carrying a
`NoInstallID` value does not install it. -/
theorem personaID_sticky_and_filtered_witness :
    (processLineIdentity { personaID := "abc" }
        "\"PersonaId\":\"zzz\"").personaID = "abc" ∧
    (goHasPre (processLineIdentity emptyParseState
        "\"PersonaId\":\"NoInstallID77\"").personaID "NoInstallID" = false ∨
      (processLineIdentity emptyParseState
        "\"PersonaId\":\"NoInstallID77\"").personaID = "") :=
  ⟨personaID_sticky_and_filtered.1 { personaID := "abc" }
      "\"PersonaId\":\"zzz\"" (by decide),
    personaID_sticky_and_filtered.2 emptyParseState
      "\"PersonaId\":\"NoInstallID77\"" (by decide) (by decide)⟩

theorem pickNewest_mem (key : α → String) (rows : List α) (r : α)
    (h : pickNewest key rows = some r) : r ∈ rows := by
  have main : ∀ (rows : List α) (acc : Option α),
      (rows.foldl
        (fun acc q =>
          match acc with
          | none => some q
          | some b => if key b < key q then some q else some b)
        acc) = some r → acc = some r ∨ r ∈ rows := by
    intro rows
    induction rows with
    | nil => intro acc h2; exact Or.inl h2
    | cons q rest ih =>
      intro acc h2
      rcases ih _ h2 with h3 | h3
      · rcases acc with _ | b
        · have h4 : some q = some r := h3
          have h5 : q = r := by injection h4
          exact Or.inr (by rw [← h5]; exact List.mem_cons_self _ _)
        · have h4 : (if key b < key q then some q else some b) = some r := h3
          by_cases hlt : key b < key q
          · rw [if_pos hlt] at h4
            have h5 : q = r := by injection h4
            exact Or.inr (by rw [← h5]; exact List.mem_cons_self _ _)
          · rw [if_neg hlt] at h4
            exact Or.inl h4
      · exact Or.inr (List.mem_cons_of_mem _ h3)
  rcases main rows none h with h2 | h2
  · simp at h2
  · exact h2

/-! ## C9 — idempotence of the alias resolver -/

theorem resolveCore_cases (runs : List EventRunRow) (x : String) :
    resolveCore runs x = x ∨ ∃ r ∈ runs, resolveCore runs x = r.eventName := by
  by_cases h0 : x = ""
  · left; subst h0; simp [resolveCore]
  · by_cases hex : runs.any (fun r => r.eventName = x)
    · left; simp only [resolveCore, if_neg h0, if_pos hex]
    · rcases hre : reSetKindEventMatch x with _ | sk
      · left; simp only [resolveCore, if_neg h0, if_neg hex, hre]
      · by_cases hlp : kindLikePattern (goLower sk.1) sk.2 = ""
        · left
          simp only [resolveCore, if_neg h0, if_neg hex, hre,
            resolveLikeBranch, if_pos hlp]
        · rcases hpk : pickNewest runOrderKey
              (runs.filter
                (fun r => likeMatch (kindLikePattern (goLower sk.1) sk.2)
                  (goLower r.eventName))) with _ | r
          · left
            simp only [resolveCore, if_neg h0, if_neg hex, hre,
              resolveLikeBranch, if_neg hlp, hpk]
          · right
            refine ⟨r, List.mem_of_mem_filter (pickNewest_mem _ _ _ hpk), ?_⟩
            simp only [resolveCore, if_neg h0, if_neg hex, hre,
              resolveLikeBranch, if_neg hlp, hpk]

/-- A second application of `resolveCore` is stable over a trim-invariant
database. -/
theorem resolveCore_idem (runs : List EventRunRow) (x : String) :
    resolveCore runs (resolveCore runs x) = resolveCore runs x := by
  by_cases h0 : x = ""
  · subst h0
    have hv : resolveCore runs "" = "" := by simp [resolveCore]
    rw [hv]
    exact hv
  · by_cases hex : runs.any (fun r => r.eventName = x)
    · have hv : resolveCore runs x = x := by
        simp only [resolveCore, if_neg h0, if_pos hex]
      rw [hv]
      exact hv
    · rcases hre : reSetKindEventMatch x with _ | sk
      · have hv : resolveCore runs x = x := by
          simp only [resolveCore, if_neg h0, if_neg hex, hre]
        rw [hv]
        exact hv
      · by_cases hlp : kindLikePattern (goLower sk.1) sk.2 = ""
        · have hv : resolveCore runs x = x := by
            simp only [resolveCore, if_neg h0, if_neg hex, hre,
              resolveLikeBranch, if_pos hlp]
          rw [hv]
          exact hv
        · rcases hpk : pickNewest runOrderKey
              (runs.filter
                (fun r => likeMatch (kindLikePattern (goLower sk.1) sk.2)
                  (goLower r.eventName))) with _ | r
          · have hv : resolveCore runs x = x := by
              simp only [resolveCore, if_neg h0, if_neg hex, hre,
                resolveLikeBranch, if_neg hlp, hpk]
            rw [hv]
            exact hv
          · have hv : resolveCore runs x = r.eventName := by
              simp only [resolveCore, if_neg h0, if_neg hex, hre,
                resolveLikeBranch, if_neg hlp, hpk]
            rw [hv]
            have hmem : r ∈ runs :=
              List.mem_of_mem_filter (pickNewest_mem _ _ _ hpk)
            by_cases hrne : r.eventName = ""
            · rw [hrne]; simp [resolveCore]
            · have hex2 : runs.any (fun q => q.eventName = r.eventName)
                  = true := by
                rw [List.any_eq_true]
                exact ⟨r, hmem, by simp⟩
              simp only [resolveCore, if_neg hrne, if_pos hex2]

/-- C9 counterexample: over a database whose stored event name carries a
trailing space, the resolver is not idempotent — the LIKE branch returns
the stored name verbatim, but resolving that name trims the space away. -/
theorem resolve_idempotent_cex :
    resolveEventNameAlias
        [{ eventName := "quickdraft_fin_2025 ", updatedAt := "u" }]
        (resolveEventNameAlias
          [{ eventName := "quickdraft_fin_2025 ", updatedAt := "u" }]
          "FIN_Quick_Draft") ≠
      resolveEventNameAlias
        [{ eventName := "quickdraft_fin_2025 ", updatedAt := "u" }]
        "FIN_Quick_Draft" := by
  decide

/-- C9 (amended): over a fixed database state in which every stored
`event_runs.event_name` equals its own trim (no leading or trailing
whitespace), the alias resolver is idempotent:
`resolve(resolve(x)) = resolve(x)` for every input event name `x`. -/
theorem resolve_idempotent_trimmed (runs : List EventRunRow)
    (htrim : ∀ r ∈ runs, goTrim r.eventName = r.eventName) (x : String) :
    resolveEventNameAlias runs (resolveEventNameAlias runs x) =
      resolveEventNameAlias runs x := by
  unfold resolveEventNameAlias
  have hstable : goTrim (resolveCore runs (goTrim x))
      = resolveCore runs (goTrim x) := by
    rcases resolveCore_cases runs (goTrim x) with h | ⟨r, hr, h⟩
    · rw [h, goTrim_goTrim]
    · rw [h]
      exact htrim r hr
  rw [hstable]
  exact resolveCore_idem runs (goTrim x)

/-- Witness for the amended C9 theorem at the S3 scenario of the spec. -/
theorem resolve_idempotent_trimmed_witness :
    resolveEventNameAlias
        [{ eventName := "QuickDraft_FIN_20250619",
           startedAt := some "2025-06-19T00:00:00Z", updatedAt := "u" }]
        (resolveEventNameAlias
          [{ eventName := "QuickDraft_FIN_20250619",
             startedAt := some "2025-06-19T00:00:00Z", updatedAt := "u" }]
          "FIN_Quick_Draft") =
      resolveEventNameAlias
        [{ eventName := "QuickDraft_FIN_20250619",
           startedAt := some "2025-06-19T00:00:00Z", updatedAt := "u" }]
        "FIN_Quick_Draft" :=
  resolve_idempotent_trimmed
    [{ eventName := "QuickDraft_FIN_20250619",
       startedAt := some "2025-06-19T00:00:00Z", updatedAt := "u" }]
    (by decide) "FIN_Quick_Draft"

/-! ## C6 — deck re-submission fully replaces the card list -/

/-- `find?` commutes with mapping a row function that does not change the
predicate's verdict. -/
theorem find?_map_pred {α : Type} (g : α → α) (pB : α → Bool)
    (hg : ∀ x, pB (g x) = pB x) (l : List α) :
    (l.map g).find? pB = (l.find? pB).map g := by
  induction l with
  | nil => rfl
  | cons d t ih =>
    rcases hpd : pB d with _ | _
    · have hgd : pB (g d) = false := by rw [hg d, hpd]
      simp only [List.map_cons, List.find?_cons, hgd, hpd, ih]
    · have hgd : pB (g d) = true := by rw [hg d, hpd]
      simp only [List.map_cons, List.find?_cons, hgd, hpd]
      rfl

/-- C6: re-submitting a deck under an existing `arena_deck_id` targets the
same deck row, and afterwards the `deck_cards` of that deck are exactly
the newly submitted lines with positive quantity (in submission order);
no card line from the previous submission survives. -/
theorem upsertDeck_replaces_cards (db : DB)
    (a en nm fm src lu now : String) (cards : List DeckCard)
    (deckID : Nat) (db2 : DB)
    (hex : ∃ d ∈ db.decks, d.arenaDeckId = a)
    (hU : UpsertDeck db a en nm fm src lu cards now = (deckID, db2)) :
    (db.decks.find? (fun d => d.arenaDeckId = a)).map (fun d => d.id)
        = some deckID ∧
    db2.deckCards.filter (fun c => c.deckId = deckID)
      = (cards.filter (fun c => 0 < c.quantity)).map
          (fun c =>
            { deckId := deckID, sectionName := c.sectionName,
              cardId := c.cardId, quantity := c.quantity }) := by
  obtain ⟨d0, hd0, hd0a⟩ := hex
  have hany : (db.decks.any fun d => d.arenaDeckId = a) = true := by
    rw [List.any_eq_true]
    exact ⟨d0, hd0, by simp [hd0a]⟩
  have hd1 : ∃ d1, db.decks.find? (fun d => d.arenaDeckId = a) = some d1 := by
    rcases hf : db.decks.find? (fun d => d.arenaDeckId = a) with _ | d1
    · exfalso
      have := List.find?_eq_none.mp hf d0 hd0
      simp [hd0a] at this
    · exact ⟨d1, hf⟩
  obtain ⟨d1, hd1⟩ := hd1
  have hp1 : d1.arenaDeckId = a := by
    have := List.find?_some hd1
    simpa using this
  simp only [UpsertDeck] at hU
  rw [if_pos hany] at hU
  have hgpres : ∀ d : DeckRow,
      (fun d : DeckRow => decide (d.arenaDeckId = a))
        ((fun d : DeckRow =>
          if d.arenaDeckId = a then
            upsertDeckRowUpdate en nm fm src (normalizeTS lu) now d
          else d) d)
      = (fun d : DeckRow => decide (d.arenaDeckId = a)) d := by
    intro d
    by_cases h : d.arenaDeckId = a
    · simp only [if_pos h]
      rfl
    · simp only [if_neg h]
  have hmapfind :
      (db.decks.map (fun d : DeckRow =>
        if d.arenaDeckId = a then
          upsertDeckRowUpdate en nm fm src (normalizeTS lu) now d
        else d)).find? (fun d => d.arenaDeckId = a)
      = some (if d1.arenaDeckId = a then
          upsertDeckRowUpdate en nm fm src (normalizeTS lu) now d1
        else d1) := by
    rw [find?_map_pred _ _ hgpres, hd1]
    rfl
  rw [hmapfind] at hU
  rw [if_pos hp1] at hU
  have hid : (upsertDeckRowUpdate en nm fm src (normalizeTS lu) now d1).id
      = d1.id := rfl
  rw [Prod.mk.injEq] at hU
  obtain ⟨hU1, hU2⟩ := hU
  have hU1id : d1.id = deckID := hU1
  constructor
  · rw [hd1]
    show some d1.id = some deckID
    rw [hU1id]
  · have hcardsEq : db2.deckCards
        = db.deckCards.filter (fun c => ¬ c.deckId = deckID) ++
          (cards.filter (fun c => 0 < c.quantity)).map
            (fun c =>
              ({ deckId := deckID, sectionName := c.sectionName,
                 cardId := c.cardId, quantity := c.quantity } :
                DeckCardRow)) := by
      rw [← hU1]
      exact (congrArg DB.deckCards hU2).symm
    rw [hcardsEq, List.filter_append]
    have hnil : (db.deckCards.filter
        (fun c => ¬ c.deckId = deckID)).filter
          (fun c => c.deckId = deckID) = [] := by
      rw [List.filter_eq_nil_iff]
      intro c hc
      have := (List.mem_filter.mp hc).2
      simp at this ⊢
      exact this
    have hall : ((cards.filter (fun c => 0 < c.quantity)).map
        (fun c =>
          ({ deckId := deckID, sectionName := c.sectionName,
             cardId := c.cardId, quantity := c.quantity } :
            DeckCardRow))).filter (fun c => c.deckId = deckID)
        = (cards.filter (fun c => 0 < c.quantity)).map
            (fun c =>
              ({ deckId := deckID, sectionName := c.sectionName,
                 cardId := c.cardId, quantity := c.quantity } :
                DeckCardRow)) := by
      rw [List.filter_eq_self]
      intro c hc
      obtain ⟨e, _, he⟩ := List.mem_map.mp hc
      rw [← he]
      simp
    rw [hnil, hall, List.nil_append]

/-- Witness for C6 at the S4 scenario: deck `D1` resubmitted with a single
card line replaces the previous two lines. -/
theorem upsertDeck_replaces_cards_witness :
    (([{ id := 1, arenaDeckId := "D1" }] :
        List DeckRow).find? (fun d => d.arenaDeckId = "D1")).map
          (fun d => d.id) = some 1 ∧
    (UpsertDeck
        { decks := [{ id := 1, arenaDeckId := "D1" }],
          deckCards :=
            [{ deckId := 1, sectionName := "main", cardId := 1,
               quantity := 4 },
             { deckId := 1, sectionName := "main", cardId := 2,
               quantity := 3 }],
          nextDeckId := 2 }
        "D1" "" "" "" "" ""
        [{ sectionName := "main", cardId := 2, quantity := 4 }]
        "t2").2.deckCards.filter
      (fun c => c.deckId = 1)
      = (([{ sectionName := "main", cardId := 2, quantity := 4 }] :
          List DeckCard).filter (fun c => 0 < c.quantity)).map
          (fun c =>
            { deckId := 1, sectionName := c.sectionName,
              cardId := c.cardId, quantity := c.quantity }) := by
  have h := upsertDeck_replaces_cards
    { decks := [{ id := 1, arenaDeckId := "D1" }],
      deckCards :=
        [{ deckId := 1, sectionName := "main", cardId := 1,
           quantity := 4 },
         { deckId := 1, sectionName := "main", cardId := 2,
           quantity := 3 }],
      nextDeckId := 2 }
    "D1" "" "" "" "" "" "t2"
    [{ sectionName := "main", cardId := 2, quantity := 4 }]
    1
    (UpsertDeck
      { decks := [{ id := 1, arenaDeckId := "D1" }],
        deckCards :=
          [{ deckId := 1, sectionName := "main", cardId := 1,
             quantity := 4 },
           { deckId := 1, sectionName := "main", cardId := 2,
             quantity := 3 }],
        nextDeckId := 2 }
      "D1" "" "" "" "" ""
      [{ sectionName := "main", cardId := 2, quantity := 4 }]
      "t2").2
    ⟨{ id := 1, arenaDeckId := "D1" }, by decide, rfl⟩
    (by decide)
  exact ⟨h.1, h.2⟩

/-- C2 (code bug): ingesting the two game-state lines of the repository's
own best-of-three test stores ONE `MatchCardPlay` row and ONE
`MatchOpponentCardInstance` row, not the two of each that the claim (and
the test) expect: the parser never extracts `gameInfo.gameNumber`, so the
second line collides with the `(match, game_number=1, instance_id)` key. -/
theorem gre_gameNumber_dropped :
    ((handleGREJSON
        (handleGREJSON emptyDB emptyParseState c2Envelope1 "now1").1
        (handleGREJSON emptyDB emptyParseState c2Envelope1 "now1").2
        c2Envelope2 "now2").1.cardPlays.length = 1 ∧
     (handleGREJSON
        (handleGREJSON emptyDB emptyParseState c2Envelope1 "now1").1
        (handleGREJSON emptyDB emptyParseState c2Envelope1 "now1").2
        c2Envelope2 "now2").1.oppCards.length = 1) := by
  decide

/-- A keyed UPDATE touching no row: when no list element satisfies the key
predicate, the row map is the identity. -/
theorem map_keyed_update_id {α : Type} (c : α → Prop) [DecidablePred c]
    (f : α → α) (l : List α) (h : ∀ x ∈ l, ¬ c x) :
    l.map (fun x => if c x then f x else x) = l := by
  induction l with
  | nil => rfl
  | cons a t ih =>
    simp only [List.map_cons]
    rw [if_neg (h a (List.mem_cons_self a t)),
        ih (fun x hx => h x (List.mem_cons_of_mem a hx))]

/-- The resolver maps the empty name to itself. -/
theorem resolveEventNameAlias_empty (runs : List EventRunRow) :
    resolveEventNameAlias runs "" = "" := rfl

/-- `ensureEventRun` never touches the `matches` table. -/
theorem ensureEventRun_matchesTable (db : DB) (r s n : String) :
    (ensureEventRun db r s n).matchesTable = db.matchesTable := by
  unfold ensureEventRun
  split
  · rfl
  · split <;> rfl

/-- The `updated_at` touch of `ensureEventRun` commutes with the
first-match lookup. -/
theorem find?_touch (runs : List EventRunRow) (r n : String) :
    (runs.map (fun q => if q.eventName = r then { q with updatedAt := n }
      else q)).find? (fun q => q.eventName = r) =
    (runs.find? (fun q => q.eventName = r)).map
      (fun q => if q.eventName = r then { q with updatedAt := n } else q) := by
  apply find?_map_pred
  intro x
  by_cases hx : x.eventName = r <;> simp [hx]

/-- The win/loss bump of `BumpEventRunRecord` commutes with the
first-match lookup. -/
theorem find?_bump (runs : List EventRunRow) (r result n : String) :
    (runs.map (fun q => if q.eventName = r then
        (if result = "loss" then
          { q with losses := q.losses + 1, updatedAt := n }
         else { q with wins := q.wins + 1, updatedAt := n })
      else q)).find? (fun q => q.eventName = r) =
    (runs.find? (fun q => q.eventName = r)).map
      (fun q => if q.eventName = r then
        (if result = "loss" then
          { q with losses := q.losses + 1, updatedAt := n }
         else { q with wins := q.wins + 1, updatedAt := n })
      else q) := by
  apply find?_map_pred
  intro x
  by_cases hx : x.eventName = r
  · by_cases hr : result = "loss" <;> simp [hx, hr]
  · simp [hx]

/-- `ensureEventRun` preserves `wins + losses` of its event: it either
touches `updated_at` of the existing rows or inserts a `0/0` run. -/
theorem ensureEventRun_runTotal (db : DB) (r s n : String) :
    runTotal (ensureEventRun db r s n).eventRuns r =
      runTotal db.eventRuns r := by
  unfold ensureEventRun
  by_cases h1 : r = ""
  · rw [if_pos h1]
  · rw [if_neg h1]
    by_cases h2 : db.eventRuns.any (fun q => q.eventName = r) = true
    · rw [if_pos h2]
      unfold runTotal
      dsimp only
      rw [find?_touch]
      rcases hf : db.eventRuns.find? (fun q => q.eventName = r) with _ | q
      · rw [hf]
        rfl
      · have hq : q.eventName = r := by simpa using List.find?_some hf
        rw [hf, Option.map_some']
        dsimp only
        rw [if_pos hq]
    · rw [if_neg h2]
      have hnone : db.eventRuns.find? (fun q => q.eventName = r) = none := by
        rw [List.find?_eq_none]
        intro x hx
        have hfalse := List.any_eq_false.mp (eq_false_of_ne_true h2) x hx
        simpa using hfalse
      unfold runTotal
      dsimp only
      rw [List.find?_append, hnone,
          List.find?_cons_of_pos _ (by simp), Option.none_or]
      rfl

/-- After `ensureEventRun` of a nonempty name, a run of that name exists. -/
theorem ensureEventRun_finds (db : DB) (r s n : String) (hr : ¬ r = "") :
    ((ensureEventRun db r s n).eventRuns.find?
      (fun q => q.eventName = r)).isSome = true := by
  unfold ensureEventRun
  rw [if_neg hr]
  by_cases h2 : db.eventRuns.any (fun q => q.eventName = r) = true
  · rw [if_pos h2]
    dsimp only
    rw [find?_touch]
    have hs : (db.eventRuns.find? (fun q => q.eventName = r)).isSome
        = true := by
      rw [List.find?_isSome]
      simpa using List.any_eq_true.mp h2
    rcases hf : db.eventRuns.find? (fun q => q.eventName = r) with _ | q
    · rw [hf] at hs
      simp at hs
    · rw [hf]
      rfl
  · rw [if_neg h2]
    have hnone : db.eventRuns.find? (fun q => q.eventName = r) = none := by
      rw [List.find?_eq_none]
      intro x hx
      have hfalse := List.any_eq_false.mp (eq_false_of_ne_true h2) x hx
      simpa using hfalse
    dsimp only
    rw [List.find?_append, hnone,
        List.find?_cons_of_pos _ (by simp), Option.none_or]
    rfl

/-- A decisive `BumpEventRunRecord` on an existing run adds exactly one to
its `wins + losses`. -/
theorem bumpEventRun_runTotal (db : DB) (name result now : String)
    (hname : ¬ name = "")
    (hres : result = "win" ∨ result = "loss")
    (hfind : (db.eventRuns.find?
      (fun q => q.eventName = name)).isSome = true) :
    runTotal (BumpEventRunRecord db name result now).eventRuns name =
      runTotal db.eventRuns name + 1 := by
  have hcond : ¬ (name = "" ∨ (result ≠ "win" ∧ result ≠ "loss")) := by
    rintro (h | ⟨hw, hl⟩)
    · exact hname h
    · rcases hres with h | h
      · exact hw h
      · exact hl h
  unfold BumpEventRunRecord
  rw [if_neg hcond]
  unfold runTotal
  dsimp only
  rw [find?_bump]
  rcases hf : db.eventRuns.find? (fun q => q.eventName = name) with _ | q
  · rw [hf] at hfind
    simp at hfind
  · have hq : q.eventName = name := by simpa using List.find?_some hf
    rw [hf, Option.map_some']
    dsimp only
    rw [if_pos hq]
    rcases hres with h | h
    · rw [h, if_neg (by decide : ¬ ("win" : String) = "loss")]
      dsimp only
      omega
    · rw [h, if_pos rfl]
      dsimp only
      omega

/-- `LinkMatchToLatestDeckByEvent` never touches `event_runs`. -/
theorem linkDeck_eventRuns (db : DB) (a e r n : String) :
    (LinkMatchToLatestDeckByEvent db a e r n).eventRuns = db.eventRuns := by
  unfold LinkMatchToLatestDeckByEvent
  dsimp only
  split
  · rfl
  · split
    · rfl
    · split
      · rfl
      · split
        · rfl
        · rfl

/-- `LinkMatchToLatestDeckByEvent` never touches the `matches` table. -/
theorem linkDeck_matchesTable (db : DB) (a e r n : String) :
    (LinkMatchToLatestDeckByEvent db a e r n).matchesTable =
      db.matchesTable := by
  unfold LinkMatchToLatestDeckByEvent
  dsimp only
  split
  · rfl
  · split
    · rfl
    · split
      · rfl
      · split
        · rfl
        · rfl

/-- A `UpdateMatchEnd` that fetches a named match row and derives a
decisive result bumps `wins + losses` of that event by exactly one. -/
theorem updateMatchEnd_runTotal (db : DB) (m : String)
    (teamID winningTeamID turnCount secondsCount : Int)
    (winReason endedAt now : String) (row : MatchRow) (name : String)
    (hfetch : db.matchesTable.find? (fun r => r.arenaMatchId = m) = some row)
    (hrow : row.eventName = some name) (hname : ¬ name = "")
    (hteam : 0 < teamID) (hwint : 0 < winningTeamID)
    (hfind : (db.eventRuns.find?
      (fun q => q.eventName = name)).isSome = true) :
    runTotal (UpdateMatchEnd db m teamID winningTeamID turnCount
        secondsCount winReason endedAt now).2.2.eventRuns name =
      runTotal db.eventRuns name + 1 := by
  have hresult : deriveResult teamID winningTeamID = "win" ∨
      deriveResult teamID winningTeamID = "loss" := by
    unfold deriveResult
    rw [if_pos ⟨hteam, hwint⟩]
    by_cases h : teamID = winningTeamID
    · left
      rw [if_pos h]
    · right
      rw [if_neg h]
  simp only [UpdateMatchEnd, hfetch]
  rw [hrow]
  simp only [Option.getD_some]
  rw [if_pos ⟨hname, hresult⟩]
  exact bumpEventRun_runTotal _ name _ now hname hresult hfind

/-- C3 counterexample: in one ingest carrying a `type=3` start, a `type=4`
end (win) and a decisive `MatchCompleted` room-state envelope for the same
match, the `event_runs` row of `Traditional_Ladder` ends at
`wins + losses = 2`, not the 1 that "increases by exactly 1 per ingest"
requires (both `UpdateMatchEnd` call sites bump it). -/
theorem eventRun_double_bump_cex :
    runTotal
      (handleRoomStateJSON
        (handleLogBusinessEvent
          (handleLogBusinessEvent emptyDB c3State c3Start "n1").1
          (handleLogBusinessEvent emptyDB c3State c3Start "n1").2
          c3End "n2").1
        (handleLogBusinessEvent
          (handleLogBusinessEvent emptyDB c3State c3Start "n1").1
          (handleLogBusinessEvent emptyDB c3State c3Start "n1").2
          c3End "n2").2
        c3Room "n3").1.eventRuns "Traditional_Ladder" = 2 := by
  decide

/-- C3 (amended): over the two business events alone — a `type=3` start
followed by a `type=4` end with a decisive result, with no room-state
`MatchCompleted` completion in between — `wins + losses` of the resolved
event increases by exactly 1. -/
theorem start_end_bumps_once (db : DB) (st st2 : ParseState)
    (evt3 evt4 : LogBusinessEvent) (now3 now4 : String)
    (eN resolved : String)
    (heN : eN = if evt3.eventId = "" then evt3.eventName else evt3.eventId)
    (hresolved : resolved = resolveEventNameAlias db.eventRuns eN)
    (h3 : evt3.eventType = 3) (h4 : evt4.eventType = 4)
    (hmid : ¬ evt3.matchId = "") (hsame : evt4.matchId = evt3.matchId)
    (hnoMatch : db.matchesTable.find?
      (fun r => r.arenaMatchId = evt3.matchId) = none)
    (hres : ¬ resolved = "") (htr : goTrim resolved = resolved)
    (hteam : 0 < evt4.teamId) (hwint : 0 < evt4.winningTeamId) :
    runTotal (handleLogBusinessEvent
        (handleLogBusinessEvent db st evt3 now3).1 st2 evt4 now4).1.eventRuns
        resolved =
      runTotal db.eventRuns resolved + 1 := by
  have heN' : ¬ eN = "" := by
    intro h
    apply hres
    rw [hresolved, h, resolveEventNameAlias_empty]
  have hany : db.matchesTable.any
      (fun r => r.arenaMatchId = evt3.matchId) = false := by
    rw [List.any_eq_false]
    intro x hx
    simpa using List.find?_eq_none.mp hnoMatch x hx
  have hmid4 : ¬ evt4.matchId = "" := by
    rw [hsame]
    exact hmid
  have hU : (UpsertMatchStart db evt3.matchId eN evt3.seatId evt3.eventTime
      now3).2 =
      ensureEventRun
        { db with
            matchesTable := db.matchesTable ++
              [newMatchRow db.nextMatchId evt3.matchId resolved evt3.seatId
                (normalizeTS evt3.eventTime) now3],
            nextMatchId := db.nextMatchId + 1 }
        resolved (normalizeTS evt3.eventTime) now3 := by
    simp only [UpsertMatchStart]
    rw [if_neg heN', ← hresolved, hany]
    rw [if_neg Bool.false_ne_true]
  have hA : (handleLogBusinessEvent db st evt3 now3).1 =
      LinkMatchToLatestDeckByEvent
        (ensureEventRun
          { db with
              matchesTable := db.matchesTable ++
                [newMatchRow db.nextMatchId evt3.matchId resolved evt3.seatId
                  (normalizeTS evt3.eventTime) now3],
              nextMatchId := db.nextMatchId + 1 }
          resolved (normalizeTS evt3.eventTime) now3)
        evt3.matchId eN "pre_match" now3 := by
    simp only [handleLogBusinessEvent, h3]
    rw [if_pos trivial, if_neg hmid, ← heN, hU]
  have hstep4 : ∀ dbX : DB,
      (handleLogBusinessEvent dbX st2 evt4 now4).1 =
        (UpdateMatchEnd dbX evt4.matchId evt4.teamId evt4.winningTeamId
          evt4.turnCount evt4.secondsCount evt4.winningReason evt4.eventTime
          now4).2.2 := by
    intro dbX
    simp only [handleLogBusinessEvent, h4]
    rw [if_neg (show ¬ (4 : Int) = 3 by decide), if_pos trivial,
        if_neg hmid4]
  rw [hA, hstep4]
  have hrowEq : (newMatchRow db.nextMatchId evt3.matchId resolved evt3.seatId
      (normalizeTS evt3.eventTime) now3).eventName = some resolved := by
    show nullIfEmpty resolved = some resolved
    unfold nullIfEmpty
    dsimp only
    rw [htr, if_neg hres]
  have hfetch : (LinkMatchToLatestDeckByEvent
      (ensureEventRun
        { db with
            matchesTable := db.matchesTable ++
              [newMatchRow db.nextMatchId evt3.matchId resolved evt3.seatId
                (normalizeTS evt3.eventTime) now3],
            nextMatchId := db.nextMatchId + 1 }
        resolved (normalizeTS evt3.eventTime) now3)
      evt3.matchId eN "pre_match" now3).matchesTable.find?
        (fun r => r.arenaMatchId = evt4.matchId) =
      some (newMatchRow db.nextMatchId evt3.matchId resolved evt3.seatId
        (normalizeTS evt3.eventTime) now3) := by
    rw [linkDeck_matchesTable, ensureEventRun_matchesTable, hsame]
    show (db.matchesTable ++ [newMatchRow db.nextMatchId evt3.matchId
      resolved evt3.seatId (normalizeTS evt3.eventTime) now3]).find?
        (fun r => r.arenaMatchId = evt3.matchId) = _
    rw [List.find?_append, hnoMatch]
    simp [newMatchRow]
  have hfind : ((LinkMatchToLatestDeckByEvent
      (ensureEventRun
        { db with
            matchesTable := db.matchesTable ++
              [newMatchRow db.nextMatchId evt3.matchId resolved evt3.seatId
                (normalizeTS evt3.eventTime) now3],
            nextMatchId := db.nextMatchId + 1 }
        resolved (normalizeTS evt3.eventTime) now3)
      evt3.matchId eN "pre_match" now3).eventRuns.find?
        (fun q => q.eventName = resolved)).isSome = true := by
    rw [linkDeck_eventRuns]
    exact ensureEventRun_finds _ resolved _ _ hres
  rw [updateMatchEnd_runTotal _ evt4.matchId evt4.teamId evt4.winningTeamId
    evt4.turnCount evt4.secondsCount evt4.winningReason evt4.eventTime now4
    (newMatchRow db.nextMatchId evt3.matchId resolved evt3.seatId
      (normalizeTS evt3.eventTime) now3) resolved hfetch hrowEq hres hteam
    hwint hfind]
  have hfin : runTotal (LinkMatchToLatestDeckByEvent
      (ensureEventRun
        { db with
            matchesTable := db.matchesTable ++
              [newMatchRow db.nextMatchId evt3.matchId resolved evt3.seatId
                (normalizeTS evt3.eventTime) now3],
            nextMatchId := db.nextMatchId + 1 }
        resolved (normalizeTS evt3.eventTime) now3)
      evt3.matchId eN "pre_match" now3).eventRuns resolved =
      runTotal db.eventRuns resolved := by
    rw [linkDeck_eventRuns]
    exact ensureEventRun_runTotal _ resolved _ _
  rw [hfin]

/-- C3 witness: the amended single-bump theorem on the concrete
start/end pair of the counterexample scenario. -/
theorem start_end_bumps_once_witness :
    runTotal (handleLogBusinessEvent
        (handleLogBusinessEvent emptyDB emptyParseState c3Start "n1").1
        emptyParseState c3End "n2").1.eventRuns "Traditional_Ladder" =
      runTotal emptyDB.eventRuns "Traditional_Ladder" + 1 :=
  start_end_bumps_once emptyDB emptyParseState emptyParseState c3Start c3End
    "n1" "n2" "Traditional_Ladder" "Traditional_Ladder" (by decide)
    (by decide) rfl rfl (by decide) rfl rfl (by decide) (by decide)
    (by decide) (by decide)

/-- C10: a match-end intent for an unknown `arena_match_id` is not
dropped: `UpdateMatchEnd` inserts an ended-only row, applies the result,
win reason and counters to it, returns the empty event name, and leaves
`event_runs` untouched. -/
theorem updateMatchEnd_creates_row (db : DB) (m : String)
    (teamID winningTeamID turnCount secondsCount : Int)
    (winReason endedAt now : String)
    (hnone : db.matchesTable.find? (fun r => r.arenaMatchId = m) = none) :
    UpdateMatchEnd db m teamID winningTeamID turnCount secondsCount
        winReason endedAt now =
      ("", deriveResult teamID winningTeamID,
       { db with
          matchesTable := db.matchesTable ++
            [matchEndRowUpdate (deriveResult teamID winningTeamID) winReason
              (normalizeTS endedAt) turnCount secondsCount now
              (endedOnlyMatchRow db.nextMatchId m (normalizeTS endedAt)
                now)],
          nextMatchId := db.nextMatchId + 1 }) := by
  have hall : ∀ r ∈ db.matchesTable, ¬ r.arenaMatchId = m := by
    intro r hr
    simpa using List.find?_eq_none.mp hnone r hr
  have hmap : (db.matchesTable ++
      [endedOnlyMatchRow db.nextMatchId m (normalizeTS endedAt) now]).map
        (fun r => if r.arenaMatchId = m then
          matchEndRowUpdate (deriveResult teamID winningTeamID) winReason
            (normalizeTS endedAt) turnCount secondsCount now r
         else r) =
      db.matchesTable ++
        [matchEndRowUpdate (deriveResult teamID winningTeamID) winReason
          (normalizeTS endedAt) turnCount secondsCount now
          (endedOnlyMatchRow db.nextMatchId m (normalizeTS endedAt) now)] := by
    rw [List.map_append, map_keyed_update_id _ _ _ hall]
    simp only [List.map_cons, List.map_nil]
    rw [if_pos (show (endedOnlyMatchRow db.nextMatchId m (normalizeTS endedAt)
      now).arenaMatchId = m from rfl)]
  simp only [UpdateMatchEnd, hnone]
  rw [if_neg (show ¬ (("" : String) ≠ "" ∧
    (deriveResult teamID winningTeamID = "win" ∨
     deriveResult teamID winningTeamID = "loss")) from
    fun h => h.1 rfl)]
  refine Prod.ext rfl (Prod.ext rfl ?_)
  show ({ db with
      matchesTable := (db.matchesTable ++
        [endedOnlyMatchRow db.nextMatchId m (normalizeTS endedAt) now]).map
          (fun r => if r.arenaMatchId = m then
            matchEndRowUpdate (deriveResult teamID winningTeamID) winReason
              (normalizeTS endedAt) turnCount secondsCount now r
           else r),
      nextMatchId := db.nextMatchId + 1 } : DB) = _
  rw [hmap]

/-- C10 witness: a concrete end-before-start intent on the empty
database. -/
theorem updateMatchEnd_creates_row_witness :
    UpdateMatchEnd emptyDB "m10" 2 1 9 480 "ResultReason_Game"
        "2025-03-01T11:00:00Z" "nowX" =
      ("", deriveResult 2 1,
       { emptyDB with
          matchesTable := emptyDB.matchesTable ++
            [matchEndRowUpdate (deriveResult 2 1) "ResultReason_Game"
              (normalizeTS "2025-03-01T11:00:00Z") 9 480 "nowX"
              (endedOnlyMatchRow emptyDB.nextMatchId "m10"
                (normalizeTS "2025-03-01T11:00:00Z") "nowX")],
          nextMatchId := emptyDB.nextMatchId + 1 }) :=
  updateMatchEnd_creates_row emptyDB "m10" 2 1 9 480 "ResultReason_Game"
    "2025-03-01T11:00:00Z" "nowX" rfl

end MtgaSpec
